import Mathlib

/-!
Verification of the core computational engine of the 8599 CPU-based ray tracer
(bounding boxes, BVH construction and traversal, ray-primitive intersection,
the stochastic path integrator, and the temporal denoiser) against its
natural-language specification.

The C++ sources are shallowly embedded over exact rational arithmetic:

* `float`/`double` scalars become `ℚ`; floating-point square roots and
  normalizations (which are approximate in the source) are abstracted as
  function parameters so that every statement is exact and executable;
* the `+infinity` sentinel stored in default intersection records
  (`std::numeric_limits<double>::max`, compared with `<` during traversal)
  becomes `⊤ : WithTop ℚ`;
* the canonical "empty" bounding box (components `+inf` / `-inf` after the
  float conversion noted in the source comment of `AABB_3D()`) lives in the
  order-completed scalar type `FRat := WithBot (WithTop ℚ)`; the order-only
  box operations (union, containment, box-box intersection) are defined
  generically over any linear order so that the same definitions serve both
  the finite boxes used in traversal and the sentinel boxes;
* raw pointers (`Entity*`, `WhittedMaterial*`) become optional identifiers /
  optional values; virtual dispatch becomes a record of functions.
-/

/-- Three-component vector, the embedding of `glm::vec3` (componentwise ops). -/
structure Vec3 (α : Type) where
  x : α
  y : α
  z : α
deriving DecidableEq, Repr

/-- The order-completed rational scalar: rationals together with the
`-inf` / `+inf` values produced by the empty-box constructor `AABB_3D()`. -/
abbrev FRat : Type := WithBot (WithTop ℚ)

abbrev Vec3Q : Type := Vec3 ℚ

instance : Zero Vec3Q := ⟨⟨0, 0, 0⟩⟩

instance : Add Vec3Q := ⟨fun a b => ⟨a.x + b.x, a.y + b.y, a.z + b.z⟩⟩

instance : Sub Vec3Q := ⟨fun a b => ⟨a.x - b.x, a.y - b.y, a.z - b.z⟩⟩

instance : Neg Vec3Q := ⟨fun a => ⟨-a.x, -a.y, -a.z⟩⟩

/-- Componentwise product, the embedding of `glm::vec3 * glm::vec3`. -/
instance : Mul Vec3Q := ⟨fun a b => ⟨a.x * b.x, a.y * b.y, a.z * b.z⟩⟩

/-- Scalar multiple, the embedding of `float * glm::vec3`. -/
instance : SMul ℚ Vec3Q := ⟨fun q v => ⟨q * v.x, q * v.y, q * v.z⟩⟩

/-- The embedding of `glm::dot`. -/
def dotV (a b : Vec3Q) : ℚ :=
  a.x * b.x + a.y * b.y + a.z * b.z

/-- The embedding of `glm::cross`. -/
def crossV (a b : Vec3Q) : Vec3Q :=
  ⟨a.y * b.z - a.z * b.y, a.z * b.x - a.x * b.z, a.x * b.y - a.y * b.x⟩

/-- The embedding of `glm::min` on vectors (componentwise minimum). -/
def Vec3.minV {α : Type} [LinearOrder α] (a b : Vec3 α) : Vec3 α :=
  ⟨min a.x b.x, min a.y b.y, min a.z b.z⟩

/-- The embedding of `glm::max` on vectors (componentwise maximum). -/
def Vec3.maxV {α : Type} [LinearOrder α] (a b : Vec3 α) : Vec3 α :=
  ⟨max a.x b.x, max a.y b.y, max a.z b.z⟩

/-- Componentwise `≤`, used to express box containment facts. -/
def Vec3.le {α : Type} [LinearOrder α] (a b : Vec3 α) : Prop :=
  a.x ≤ b.x ∧ a.y ≤ b.y ∧ a.z ≤ b.z

instance {α : Type} [LinearOrder α] (a b : Vec3 α) : Decidable (Vec3.le a b) := by
  unfold Vec3.le; infer_instance

/-- The axis enumeration from `BoundingVolume.h`. -/
inductive Axis where
  | X_axis
  | Y_axis
  | Z_axis
deriving DecidableEq, Repr

/-- The axis-aligned bounding box `AABB_3D` of `BoundingVolume.h`, generic in
the scalar so that the same operations cover finite boxes (`α := ℚ`) and the
`±inf` sentinel boxes (`α := FRat`). -/
structure AABB_3D (α : Type) where
  min_slab_values : Vec3 α
  max_slab_values : Vec3 α
deriving DecidableEq, Repr

/-- The default constructor `AABB_3D()`: the box that contains nothing, with
`min = +inf` and `max = -inf` componentwise (per the source comment, the
`double` limits are stored into `float` components as `inf` / `-inf`). -/
def AABB_3D.empty : AABB_3D FRat :=
  ⟨⟨⊤, ⊤, ⊤⟩, ⟨⊥, ⊥, ⊥⟩⟩

/-- The "box of everything" referred to by the source comments of
`intersects_with_3D_AABB`: `min = -inf`, `max = +inf` componentwise. -/
def AABB_3D.everything : AABB_3D FRat :=
  ⟨⟨⊥, ⊥, ⊥⟩, ⟨⊤, ⊤, ⊤⟩⟩

/-- The single-point constructor `AABB_3D(point)`. -/
def AABB_3D.of_point {α : Type} (p : Vec3 α) : AABB_3D α :=
  ⟨p, p⟩

/-- The two-point constructor `AABB_3D(point_1, point_2)`: the box with the
two points as diagonal corners, taking componentwise min/max. -/
def AABB_3D.of_two_points {α : Type} [LinearOrder α] (p q : Vec3 α) : AABB_3D α :=
  ⟨Vec3.minV p q, Vec3.maxV p q⟩

/-- The embedding of `AABB_3D::contains_point`. -/
def AABB_3D.contains_point {α : Type} [LinearOrder α] (b : AABB_3D α) (p : Vec3 α) : Bool :=
  decide (b.min_slab_values.x ≤ p.x) && decide (p.x ≤ b.max_slab_values.x) &&
  (decide (b.min_slab_values.y ≤ p.y) && decide (p.y ≤ b.max_slab_values.y)) &&
  (decide (b.min_slab_values.z ≤ p.z) && decide (p.z ≤ b.max_slab_values.z))

/-- The embedding of `AABB_3D::intersects_with_3D_AABB`. -/
def AABB_3D.intersects_with_3D_AABB {α : Type} [LinearOrder α]
    (a b : AABB_3D α) : Bool :=
  decide (a.max_slab_values.x ≥ b.min_slab_values.x) &&
  decide (a.min_slab_values.x ≤ b.max_slab_values.x) &&
  (decide (a.max_slab_values.y ≥ b.min_slab_values.y) &&
   decide (a.min_slab_values.y ≤ b.max_slab_values.y)) &&
  (decide (a.max_slab_values.z ≥ b.min_slab_values.z) &&
   decide (a.min_slab_values.z ≤ b.max_slab_values.z))

/-- The embedding of `AABB_3D::Union_with_point`. -/
def AABB_3D.Union_with_point {α : Type} [LinearOrder α]
    (b : AABB_3D α) (p : Vec3 α) : AABB_3D α :=
  ⟨Vec3.minV b.min_slab_values p, Vec3.maxV b.max_slab_values p⟩

/-- The embedding of `AABB_3D::Union_with_3D_AABB`. -/
def AABB_3D.Union_with_3D_AABB {α : Type} [LinearOrder α]
    (a b : AABB_3D α) : AABB_3D α :=
  ⟨Vec3.minV a.min_slab_values b.min_slab_values,
   Vec3.maxV a.max_slab_values b.max_slab_values⟩

/-- The embedding of `AABB_3D::diagonal_vector` (finite boxes). -/
def AABB_3D.diagonal_vector (b : AABB_3D ℚ) : Vec3Q :=
  b.max_slab_values - b.min_slab_values

/-- The embedding of `AABB_3D::center_vector` (finite boxes). -/
def AABB_3D.center_vector (b : AABB_3D ℚ) : Vec3Q :=
  (1 / 2 : ℚ) • (b.max_slab_values + b.min_slab_values)

/-- The embedding of `AABB_3D::longest_axis`: `X` when `x` is strictly larger
than both others, else `Y` when `y` is strictly larger than `z`, else `Z`. -/
def AABB_3D.longest_axis (b : AABB_3D ℚ) : Axis :=
  let diagonal := b.diagonal_vector
  if diagonal.x > diagonal.y ∧ diagonal.x > diagonal.z then
    Axis.X_axis
  else if diagonal.y > diagonal.z then
    Axis.Y_axis
  else
    Axis.Z_axis

/-- Box containment (`inner` inside `outer`), used to phrase the BVH
well-formedness invariant that a node's box encloses its children's boxes. -/
def box_subset (inner outer : AABB_3D ℚ) : Bool :=
  decide (Vec3.le outer.min_slab_values inner.min_slab_values) &&
  decide (Vec3.le inner.max_slab_values outer.max_slab_values)

/-- The ray of `Ray.h`: origin, direction, and the componentwise direction
reciprocal precomputed by the constructor. -/
structure Ray where
  m_origin : Vec3Q
  m_direction : Vec3Q
  direction_reciprocal : Vec3Q
deriving DecidableEq, Repr

/-- The `AccelerationStructure::Ray` constructor, which caches the
componentwise reciprocal of the direction. -/
def mkRay (origin direction : Vec3Q) : Ray :=
  ⟨origin, direction, ⟨1 / direction.x, 1 / direction.y, 1 / direction.z⟩⟩

/-- The ray evaluation `Ray::operator()(t)`: `origin + t * direction`. -/
def Ray.at (r : Ray) (t : ℚ) : Vec3Q :=
  r.m_origin + t • r.m_direction

/-- The embedding of `AABB_3D::intersects_with_ray` (the slab method): the
per-axis parametric entry/exit distances are computed with the precomputed
reciprocal, swapped on each axis whose direction component is negative, and
the test succeeds iff the latest entry is at most the earliest exit and the
earliest exit is non-negative. -/
def AABB_3D.intersects_with_ray (b : AABB_3D ℚ) (ray : Ray)
    (ray_direction_reciprocal : Vec3Q) (ray_direction_is_negative : Vec3 Bool) : Bool :=
  let t_in_x := (b.min_slab_values.x - ray.m_origin.x) * ray_direction_reciprocal.x
  let t_in_y := (b.min_slab_values.y - ray.m_origin.y) * ray_direction_reciprocal.y
  let t_in_z := (b.min_slab_values.z - ray.m_origin.z) * ray_direction_reciprocal.z
  let t_out_x := (b.max_slab_values.x - ray.m_origin.x) * ray_direction_reciprocal.x
  let t_out_y := (b.max_slab_values.y - ray.m_origin.y) * ray_direction_reciprocal.y
  let t_out_z := (b.max_slab_values.z - ray.m_origin.z) * ray_direction_reciprocal.z
  let sx := if ray_direction_is_negative.x then (t_out_x, t_in_x) else (t_in_x, t_out_x)
  let sy := if ray_direction_is_negative.y then (t_out_y, t_in_y) else (t_in_y, t_out_y)
  let sz := if ray_direction_is_negative.z then (t_out_z, t_in_z) else (t_in_z, t_out_z)
  let t_in := max sx.1 (max sy.1 sz.1)
  let t_out := min sx.2 (min sy.2 sz.2)
  decide (t_out ≥ 0) && decide (t_in ≤ t_out)

/-- The sign flags `ray_direction_is_negative` computed at the top of
`BVH::traverse_BVH_from_node`. -/
def ray_negative_flags (ray : Ray) : Vec3 Bool :=
  ⟨decide (ray.m_direction.x < 0), decide (ray.m_direction.y < 0),
   decide (ray.m_direction.z < 0)⟩

/-- The float constant `PI` of `WhittedUtilities.h` as the exact rational of
the literal `3.141592653589793f`. -/
def PI_Q : ℚ := 3.141592653589793

/-- The float constant `INTERSECTION_CORRECTION` of `WhittedUtilities.h`. -/
def INTERSECTION_CORRECTION : ℚ := 0.00001

/-- The constant `Renderer::RR_survival_probability` ("RR" for Russian
Roulette) from `Renderer.h`. -/
def RR_survival_probability : ℚ := 0.8

/-- The diffuse material of `WhittedMaterial.h`: an emission vector, the
`emitting` flag computed at construction, and the albedo
(`diffuse_coefficient`). -/
structure WhittedMaterial where
  emitting : Bool
  m_emission : Vec3Q
  diffuse_coefficient : Vec3Q
deriving DecidableEq, Repr

/-- The embedding of `WhittedMaterial::IsEmitting`. -/
def WhittedMaterial.IsEmitting (m : WhittedMaterial) : Bool := m.emitting

/-- The embedding of `WhittedMaterial::GetEmission`. -/
def WhittedMaterial.GetEmission (m : WhittedMaterial) : Vec3Q := m.m_emission

/-- The embedding of `WhittedMaterial::BRDF`: `albedo / π` when the incoming
direction is on the same side as the normal, zero otherwise. -/
def WhittedMaterial.BRDF (m : WhittedMaterial)
    (W_out W_in shading_point_normal : Vec3Q) : Vec3Q :=
  if dotV W_in shading_point_normal ≥ 0 then
    (1 / PI_Q) • m.diffuse_coefficient
  else
    0

/-- The embedding of `WhittedMaterial::PDF_at_the_sample`: the constant
`1 / (2π)` (the guard in the source is `if (true)`). -/
def WhittedMaterial.PDF_at_the_sample (_m : WhittedMaterial)
    (_W_out _W_in _shading_point_normal : Vec3Q) : ℚ :=
  1 / (2 * PI_Q)

/-- A placeholder material standing for a null `WhittedMaterial*`
(default-constructed values; dereferencing a null pointer is undefined in
the source, so theorems always hypothesise a present material). -/
def nullMaterial : WhittedMaterial := ⟨false, 0, 0⟩

/-- The intersection record of `IntersectionRecord.h`.  The `t = +infinity`
sentinel (`std::numeric_limits<double>::max()` in the source) is `⊤`.  The
`hitted_entity` pointer is modelled as an optional entity identifier and the
material pointer as an optional material value.

Modelled from the spec: the Denoiser-stage `IntersectionRecord.h` is not in
the source tree; per the spec's data model the record additionally carries a
primitive identity used for temporal correspondence (`primitive_id`) and,
when copied into a light-sample record, the light's `emission`. -/
structure IntersectionRecord where
  has_intersection : Bool
  t : WithTop ℚ
  location : Vec3Q
  surface_normal : Vec3Q
  hitted_entity : Option Nat
  hitted_entity_material : Option WhittedMaterial
  primitive_id : Int
  emission : Vec3Q
deriving DecidableEq, Repr

/-- The default-constructed record: no intersection, `t` at the `+infinity`
sentinel, zero vectors, null pointers. -/
def IntersectionRecord.mkDefault : IntersectionRecord :=
  ⟨false, ⊤, 0, 0, none, none, -1, 0⟩

instance : Inhabited IntersectionRecord := ⟨IntersectionRecord.mkDefault⟩

/-- A surface primitive as seen by the BVH and the light sampler: the
capability set of `Whitted::Entity` (bounding box, ray intersection test,
emissive flag, and light sampling).  The virtual interface is modelled as a
record of functions; `Sampling` returns the (random) surface sample and its
PDF, modelled as a fixed outcome. -/
structure Entity where
  Get3DAABB : AABB_3D ℚ
  GetIntersectionRecord : Ray → IntersectionRecord
  IsEmissive : Bool
  Sampling : IntersectionRecord × ℚ

/-- A BVH node (`BVH_Node` of `BVH.h`): either a leaf holding one primitive
and its box, or an internal node owning two children and a box.  The C++
invariant "leaf iff both child pointers are null" is captured by the shape. -/
inductive BVH_Node where
  | leaf (bounding_volume : AABB_3D ℚ) (entity : Entity)
  | node (left : BVH_Node) (right : BVH_Node) (bounding_volume : AABB_3D ℚ)

/-- The `bounding_volume` data member of a node. -/
def BVH_Node.bounding_volume : BVH_Node → AABB_3D ℚ
  | .leaf bv _ => bv
  | .node _ _ bv => bv

/-- The embedding of `BVH::traverse_BVH_from_node`: reject the subtree when
the ray misses the node's box; at a leaf delegate to the primitive's own
test; at an internal node recurse into both children and keep the record
with the smaller `t` (ties go to the right child, as in the source's
conditional expression). -/
def traverse_BVH_from_node (ray : Ray) : BVH_Node → IntersectionRecord
  | .leaf bv entity =>
      if !(bv.intersects_with_ray ray ray.direction_reciprocal (ray_negative_flags ray)) then
        IntersectionRecord.mkDefault
      else
        entity.GetIntersectionRecord ray
  | .node left right bv =>
      if !(bv.intersects_with_ray ray ray.direction_reciprocal (ray_negative_flags ray)) then
        IntersectionRecord.mkDefault
      else
        let left_part := traverse_BVH_from_node ray left
        let right_part := traverse_BVH_from_node ray right
        if left_part.t < right_part.t then left_part else right_part

/-- The embedding of `BVH::traverse_BVH_from_root`: a BVH with no primitives
(null root) reports no intersection. -/
def traverse_BVH_from_root (root : Option BVH_Node) (ray : Ray) : IntersectionRecord :=
  match root with
  | none => IntersectionRecord.mkDefault
  | some node => traverse_BVH_from_node ray node

/-- The centroid of a primitive's bounding box, `Get3DAABB().center_vector()`,
the sort key source of `BVH::build_BVH`. -/
def entity_centroid (e : Entity) : Vec3Q :=
  e.Get3DAABB.center_vector

/-- The centroid coordinate along an axis, the comparator key used by the
per-axis `std::sort` calls in `BVH::build_BVH`. -/
def centroid_key : Axis → Entity → ℚ
  | Axis.X_axis, e => (entity_centroid e).x
  | Axis.Y_axis, e => (entity_centroid e).y
  | Axis.Z_axis, e => (entity_centroid e).z

/-- The AABB of all primitive centroids accumulated by the loop in
`BVH::build_BVH`.  The source starts from the empty box (`min = +inf`,
`max = -inf`) and unions every centroid in order; since the first union with
a point collapses the empty box to that point's box, the accumulation over a
non-empty list is started here from the point box of the first centroid. -/
def centroid_bounds : List Entity → AABB_3D ℚ
  | [] => AABB_3D.of_point 0
  | e :: rest =>
      rest.foldl (fun acc e' => acc.Union_with_point (entity_centroid e'))
        (AABB_3D.of_point (entity_centroid e))

/-- A dummy entity used only to make the embedding of `build_BVH` total on
the empty list, which the source excludes by precondition
("Assume entities.size() != 0"). -/
def deadEntity : Entity :=
  ⟨AABB_3D.of_point 0, fun _ => IntersectionRecord.mkDefault, false,
   (IntersectionRecord.mkDefault, 0)⟩

/-- An abstract in-place sort routine standing for `std::sort`.  The C++
standard guarantees that the call permutes the range into an order sorted by
the comparator but guarantees NO stability, so the embedding must not fix
the relative order of elements with tied keys: the routine is a parameter.
Length preservation is structural (an in-place array sort cannot change the
array's size, whatever order it produces); the sorted-permutation
postcondition is hypothesised where a theorem needs it. -/
structure SortRoutine where
  sortFn : (Entity → Entity → Bool) → List Entity → List Entity
  length_eq : ∀ cmp l, (sortFn cmp l).length = l.length

/-- A sort routine that returns its input unchanged: on inputs whose keys
all tie it is a valid `std::sort` outcome. -/
def idSortRoutine : SortRoutine :=
  ⟨fun _ l => l, fun _ _ => rfl⟩

/-- A sort routine that reverses its input: on inputs whose keys all tie it
is another valid `std::sort` outcome, differing from the stable order. -/
def revSortRoutine : SortRoutine :=
  ⟨fun _ l => l.reverse, fun _ l => List.length_reverse l⟩

/-- The embedding of `BVH::build_BVH`, parametric in the sort routine `s`
standing for `std::sort`: one primitive gives a leaf with the primitive's
own box; two primitives give an internal node over two singleton leaves;
three or more primitives are sorted by `s` with the source's strict
centroid-coordinate comparator on the longest axis of the centroid bounds,
split at the median index `size / 2`, recursed into, and boxed by the union
of the children's boxes. -/
def build_BVH (s : SortRoutine) : List Entity → BVH_Node
  | [] => BVH_Node.leaf (AABB_3D.of_point 0) deadEntity
  | [e] => BVH_Node.leaf e.Get3DAABB e
  | [e1, e2] =>
      let l := build_BVH s [e1]
      let r := build_BVH s [e2]
      BVH_Node.node l r (l.bounding_volume.Union_with_3D_AABB r.bounding_volume)
  | e1 :: e2 :: e3 :: rest =>
      let entities := e1 :: e2 :: e3 :: rest
      let axis := (centroid_bounds entities).longest_axis
      let sorted := s.sortFn
        (fun a b => decide (centroid_key axis a < centroid_key axis b)) entities
      let left_half := sorted.take (entities.length / 2)
      let right_half := sorted.drop (entities.length / 2)
      let l := build_BVH s left_half
      let r := build_BVH s right_half
      BVH_Node.node l r (l.bounding_volume.Union_with_3D_AABB r.bounding_volume)
termination_by es => es.length
decreasing_by
  · simp
  · simp
  · simp only [List.length_take, s.length_eq, List.length_cons]
    omega
  · simp only [List.length_drop, s.length_eq, List.length_cons]
    omega

/-- The in-order list of primitives stored at the leaves of a BVH subtree. -/
def BVH_Node.entities : BVH_Node → List Entity
  | .leaf _ e => [e]
  | .node l r _ => l.entities ++ r.entities

/-- Number of leaf nodes of a BVH subtree. -/
def BVH_Node.leafCount : BVH_Node → Nat
  | .leaf _ _ => 1
  | .node l r _ => l.leafCount + r.leafCount

/-- Number of internal nodes of a BVH subtree. -/
def BVH_Node.internalCount : BVH_Node → Nat
  | .leaf _ _ => 0
  | .node l r _ => l.internalCount + r.internalCount + 1

/-- Choice of the record with smaller `t` between two intersection records,
as written at the bottom of `traverse_BVH_from_node` (ties go to the second
operand). -/
def combine_records (a b : IntersectionRecord) : IntersectionRecord :=
  if a.t < b.t then a else b

/-- Brute-force reference: test every primitive with its own intersection
routine and keep the record with the smallest `t` (the default no-hit record,
whose `t` is the `+infinity` sentinel, is the fold seed). -/
def linear_scan (ray : Ray) (es : List Entity) : IntersectionRecord :=
  es.foldr (fun e acc => combine_records (e.GetIntersectionRecord ray) acc)
    IntersectionRecord.mkDefault

/-- Structural well-formedness of a BVH as built by `build_BVH`: a leaf's box
is its primitive's box, and an internal node's box contains both children's
boxes. -/
def BVH_wf : BVH_Node → Bool
  | .leaf bv e => bv = e.Get3DAABB
  | .node l r bv =>
      BVH_wf l && BVH_wf r &&
      box_subset l.bounding_volume bv && box_subset r.bounding_volume bv

/-- A ray whose cached reciprocal is consistent and whose direction has no
zero component (the source's stated precondition for the slab test: no
perfectly axis-aligned ray). -/
def ray_ok (r : Ray) : Prop :=
  r.m_direction.x ≠ 0 ∧ r.m_direction.y ≠ 0 ∧ r.m_direction.z ≠ 0 ∧
  r.direction_reciprocal =
    ⟨1 / r.m_direction.x, 1 / r.m_direction.y, 1 / r.m_direction.z⟩

instance (r : Ray) : Decidable (ray_ok r) := by
  unfold ray_ok; infer_instance

/-- Contract of every primitive's own intersection routine, as implemented by
`Sphere::GetIntersectionRecord` and `TrianglePrimitive::GetIntersectionRecord`:
a miss (reported with the sentinel `t = ⊤`) is exactly the default record,
and hits lie inside the primitive's bounding box, so a ray that misses the
box cannot hit the primitive. -/
def entity_ok (ray : Ray) (e : Entity) : Prop :=
  ((e.GetIntersectionRecord ray).t = ⊤ → e.GetIntersectionRecord ray = IntersectionRecord.mkDefault) ∧
  (¬ (e.Get3DAABB.intersects_with_ray ray ray.direction_reciprocal (ray_negative_flags ray) = true) →
    e.GetIntersectionRecord ray = IntersectionRecord.mkDefault)

instance (ray : Ray) (e : Entity) : Decidable (entity_ok ray e) := by
  unfold entity_ok; infer_instance

/-- The embedding of `Renderer::SamplingAreaLight`: walk the entity list,
and at the first emissive entity take its sample and PDF and `break`.  When
no emissive entity exists the source leaves the outputs uninitialised; the
embedding returns the default record with PDF `0`. -/
def SamplingAreaLight (entities : List Entity) : IntersectionRecord × ℚ :=
  match entities.find? (fun e => e.IsEmissive) with
  | some e => e.Sampling
  | none => (IntersectionRecord.mkDefault, 0)

/-- The renderer state and randomness visible to `Renderer::shading`,
modelled as data: `trace` is `ray_BVH_intersection_record` (BVH traversal
over the scene), `arealight_sample`/`arealight_PDF` are the outcome of the
`SamplingAreaLight` call, `rands lvl` is the Russian-roulette draw
`get_random_float_0_1()` at recursion level `lvl`, `dirSample lvl` is the
direction drawn by `WhittedMaterial::Sampling` at level `lvl`, and
`normalizeV`/`len` stand for `glm::normalize`/`glm::length` (whose inner
square root is irrational and therefore kept abstract). -/
structure RendererState where
  trace : Ray → IntersectionRecord
  arealight_sample : IntersectionRecord
  arealight_PDF : ℚ
  rands : ℕ → ℚ
  dirSample : ℕ → Vec3Q
  normalizeV : Vec3Q → Vec3Q
  len : Vec3Q → ℚ

/-- The direct-illumination term of `Renderer::shading` (the
`radiance_direct` block): sample the area light, flip the light normal
toward the shadow ray, trace the shadow ray from the offset shading point
`p`, and when the light sample lies closer than the occluder `t` plus the
`0.01` correction, accumulate
`emission * BRDF * cos_surface * cos_light / distance^2 / pdf`. -/
def radiance_direct (env : RendererState) (m : WhittedMaterial)
    (W_out n p : Vec3Q) : Vec3Q :=
  let sample := env.arealight_sample
  let pdf := env.arealight_PDF
  let shading_point_to_sample := sample.location - p
  let W_in_light := env.normalizeV shading_point_to_sample
  let nl :=
    if dotV sample.surface_normal (-W_in_light) < 0 then
      -sample.surface_normal
    else
      sample.surface_normal
  let occlusion := env.trace (mkRay p W_in_light)
  if ((env.len shading_point_to_sample : ℚ) : WithTop ℚ) < occlusion.t + ((0.01 : ℚ) : WithTop ℚ) then
    ((dotV W_in_light n * dotV (-W_in_light) nl / dotV shading_point_to_sample shading_point_to_sample) / pdf) •
      (sample.emission * m.BRDF W_out W_in_light n)
  else
    0

/-- The indirect-illumination term of `Renderer::shading` (the
`radiance_indirect` block): with survival probability
`RR_survival_probability`, draw a bounce direction, trace it, skip the term
entirely when the bounce ray misses or hits an emissive surface, and
otherwise weight the recursive radiance `k` by
`BRDF * cos / PDF / RR_survival_probability`. -/
def radiance_indirect (env : RendererState)
    (k : IntersectionRecord → Vec3Q → Vec3Q) (lvl : ℕ)
    (m : WhittedMaterial) (W_out n p : Vec3Q) : Vec3Q :=
  if env.rands lvl < RR_survival_probability then
    let W_in := env.normalizeV (env.dirSample lvl)
    let pdf := m.PDF_at_the_sample W_out W_in n
    let deeper := env.trace (mkRay p W_in)
    if deeper.has_intersection && !((deeper.hitted_entity_material.getD nullMaterial).IsEmitting) then
      ((dotV W_in n / pdf) / RR_survival_probability) •
        (k deeper (-W_in) * m.BRDF W_out W_in n)
    else
      0
  else
    0

/-- The embedding of `Renderer::shading`, by recursion on a fuel budget (the
source recursion is terminated only stochastically by Russian roulette; every
claim is about levels that the budget covers, and exhausted fuel yields zero
radiance): an emissive surface returns its emission with no further bounces;
otherwise the shading normal is flipped toward `W_out`, the shading point is
offset along it by `INTERSECTION_CORRECTION`, and the result is the sum of
the direct and indirect terms. -/
def shading (env : RendererState) : ℕ → IntersectionRecord → Vec3Q → Vec3Q
  | 0, _, _ => 0
  | Nat.succ fuel, record, W_out =>
      let m := record.hitted_entity_material.getD nullMaterial
      if m.IsEmitting then
        m.GetEmission
      else
        let n :=
          if dotV record.surface_normal W_out < 0 then
            -record.surface_normal
          else
            record.surface_normal
        let p := record.location + INTERSECTION_CORRECTION • n
        radiance_direct env m W_out n p +
          radiance_indirect env (shading env fuel) (fuel + 1) m W_out n p

/-- The embedding of `Whitted::RayTriangleIntersection` (Möller–Trumbore):
returns the reported hit flag together with the computed ray parameter
`t_intersection` (written through the reference parameter even on a miss). -/
def RayTriangleIntersection (vertice_1 vertice_2 vertice_3 ray_origin ray_direction : Vec3Q) :
    Bool × ℚ :=
  let E_1 := vertice_2 - vertice_1
  let E_2 := vertice_3 - vertice_1
  let S := ray_origin - vertice_1
  let S_1 := crossV ray_direction E_2
  let S_2 := crossV S E_1
  let inverse_denominator := 1 / dotV S_1 E_1
  let t_intersection := dotV S_2 E_2 * inverse_denominator
  let barycentric_coordinate_2 := dotV S_1 S * inverse_denominator
  let barycentric_coordinate_3 := dotV S_2 ray_direction * inverse_denominator
  (decide (t_intersection > 0) && decide (barycentric_coordinate_2 > 0) &&
     decide (barycentric_coordinate_3 > 0) &&
     decide (1 - barycentric_coordinate_2 - barycentric_coordinate_3 > 0),
   t_intersection)

/-- The embedding of `Whitted::QuadraticFormula`, parametric in the square
root routine (`std::sqrt` is approximate on floats; `sqrtQ` stands for the
value it returns on the discriminant).  Returns `none` when the discriminant
is negative, otherwise the two roots with the final swap guaranteeing
`x_small ≤ x_large`. -/
def QuadraticFormula (sqrtQ : ℚ → ℚ) (A B C : ℚ) : Option (ℚ × ℚ) :=
  let discriminant := B * B - 4 * A * C
  if discriminant < 0 then
    none
  else
    let roots :=
      if discriminant = 0 then
        (-(1 / 2) * B / A, -(1 / 2) * B / A)
      else
        let q :=
          if B > 0 then
            -(1 / 2) * (B + sqrtQ discriminant)
          else
            -(1 / 2) * (B - sqrtQ discriminant)
        (q / A, C / q)
    if roots.1 > roots.2 then some (roots.2, roots.1) else some (roots.1, roots.2)

/-- The sphere of `Sphere.h`: center, radius, the precomputed squared radius,
its material, and an identifier standing for the object's address (stored
into `hitted_entity` on a hit). -/
structure Sphere where
  m_center : Vec3Q
  m_radius : ℚ
  material : WhittedMaterial
  id : Nat
deriving DecidableEq, Repr

/-- The precomputed member `radius_squared`. -/
def Sphere.radius_squared (s : Sphere) : ℚ := s.m_radius * s.m_radius

/-- The embedding of `Sphere::GetIntersectionRecord`: solve the intersection
quadratic; when the smaller root is negative fall back to the larger root;
when that is still negative report no intersection (the default record);
otherwise fill the record at the chosen parameter.  `sqrtQ` and `normalizeV`
stand for the float square root and normalization. -/
def Sphere.GetIntersectionRecord (s : Sphere) (sqrtQ : ℚ → ℚ)
    (normalizeV : Vec3Q → Vec3Q) (ray : Ray) : IntersectionRecord :=
  let center_to_light_origin := ray.m_origin - s.m_center
  match QuadraticFormula sqrtQ (dotV ray.m_direction ray.m_direction)
      (2 * dotV ray.m_direction center_to_light_origin)
      (dotV center_to_light_origin center_to_light_origin - s.radius_squared) with
  | none => IntersectionRecord.mkDefault
  | some (t_small, t_large) =>
      let t_chosen := if t_small < 0 then t_large else t_small
      if t_chosen < 0 then
        IntersectionRecord.mkDefault
      else
        { has_intersection := true
          t := (t_chosen : ℚ)
          location := ray.at t_chosen
          surface_normal := normalizeV (ray.at t_chosen - s.m_center)
          hitted_entity := some s.id
          hitted_entity_material := some s.material
          primitive_id := -1
          emission := 0 }

/-- Componentwise division of a vector by a scalar. -/
instance : HDiv Vec3Q ℚ Vec3Q := ⟨fun v q => ⟨v.x / q, v.y / q, v.z / q⟩⟩

/-- The embedding of `glm::clamp(v, lo, hi)`: componentwise `min(max(v, lo), hi)`. -/
def clampVec (v lo hi : Vec3Q) : Vec3Q :=
  Vec3.minV (Vec3.maxV v lo) hi

/-- Four-component vector (`glm::vec4`). -/
structure Vec4 where
  x : ℚ
  y : ℚ
  z : ℚ
  w : ℚ
deriving DecidableEq, Repr

/-- Column-major 4x4 matrix (`glm::mat4`), stored as its four columns. -/
structure Mat4 where
  c0 : Vec4
  c1 : Vec4
  c2 : Vec4
  c3 : Vec4
deriving DecidableEq, Repr

/-- Matrix-vector product `m * v` of glm (linear combination of columns). -/
def Mat4.mulVec (m : Mat4) (v : Vec4) : Vec4 :=
  ⟨v.x * m.c0.x + v.y * m.c1.x + v.z * m.c2.x + v.w * m.c3.x,
   v.x * m.c0.y + v.y * m.c1.y + v.z * m.c2.y + v.w * m.c3.y,
   v.x * m.c0.z + v.y * m.c1.z + v.z * m.c2.z + v.w * m.c3.z,
   v.x * m.c0.w + v.y * m.c1.w + v.z * m.c2.w + v.w * m.c3.w⟩

/-- The identity matrix `glm::mat4{1.0f}`. -/
def Mat4.identity : Mat4 :=
  ⟨⟨1, 0, 0, 0⟩, ⟨0, 1, 0, 0⟩, ⟨0, 0, 1, 0⟩, ⟨0, 0, 0, 1⟩⟩

/-- Truncation of a rational toward zero, the embedding of the C++
float-to-`int` conversion applied to `pixel_position`. -/
def truncQ (q : ℚ) : Int :=
  Int.tdiv q.num q.den

/-- The closed integer interval `[a, b]` as a list, the index set of a
`for (int i = a; i <= b; i++)` loop. -/
def intRange (a b : Int) : List Int :=
  (List.range (b + 1 - a).toNat).map (fun k => a + (k : Int))

/-- The per-frame G-buffer of `Denoiser.h`: parallel per-pixel channels
(indexed `column, row` as by `FrameBuffer::operator()`; the flat-vector
memory layout is abstracted into an indexing function) plus the camera
matrices of the frame that produced them. -/
structure G_Buffer where
  pixel_world_position : Int → Int → Vec3Q
  pixel_color : Int → Int → Vec3Q
  pixel_world_surface_normal : Int → Int → Vec3Q
  contributor : Int → Int → Int
  primitive_id : Int → Int → Int
  projection_matrix : Mat4
  view_matrix : Mat4

/-- The `Denoising::Denoiser` state and settings used by the temporal pass:
the toggle, kernel half-size, variance tolerance `k`, fixed current-frame
blend weight, the retained previous-frame G-buffer with its accessibility
flag, the frame dimensions, and the abstracted `std::sqrt`. -/
structure Denoiser where
  using_temporal_filtering : Bool
  Temporal_FilterKernelHalfSize : Int
  tolerance : ℚ
  current_frame_weighting : ℚ
  accessible_previous_frame : Bool
  frame_width : Int
  frame_height : Int
  previous_frame_g_buffer : G_Buffer
  sqrtQ : ℚ → ℚ

/-- The kernel-window index set of the temporal filter's statistics loops:
the clipped square of half-size `Temporal_FilterKernelHalfSize` around the
pixel, outer index first as in the nested `for` loops. -/
def temporal_cells (d : Denoiser) (x y : Int) : List (Int × Int) :=
  (intRange (max 0 (x - d.Temporal_FilterKernelHalfSize))
      (min (d.frame_width - 1) (x + d.Temporal_FilterKernelHalfSize))).flatMap
    (fun i => (intRange (max 0 (y - d.Temporal_FilterKernelHalfSize))
        (min (d.frame_height - 1) (y + d.Temporal_FilterKernelHalfSize))).map (fun j => (i, j)))

/-- The componentwise mean of the current frame's colors over the kernel
cells (the `mean` accumulator of `TemporalFiltering`). -/
def kernel_mean (cur : G_Buffer) (cells : List (Int × Int)) : Vec3Q :=
  ((cells.map (fun c => cur.pixel_color c.1 c.2)).foldl (· + ·) 0) / (cells.length : ℚ)

/-- The `variance` accumulator of `TemporalFiltering` after the square root:
componentwise, the root of the mean squared difference between the center
pixel's color and each kernel color (not the deviation from the mean). -/
def temporal_deviation (d : Denoiser) (cur : G_Buffer) (x y : Int)
    (cells : List (Int × Int)) : Vec3Q :=
  let variance : Vec3Q :=
    (cells.map (fun c =>
      let diff := cur.pixel_color x y - cur.pixel_color c.1 c.2
      diff * diff)).foldl (· + ·) 0
  ⟨d.sqrtQ (max (variance.x / (cells.length : ℚ)) 0),
   d.sqrtQ (max (variance.y / (cells.length : ℚ)) 0),
   d.sqrtQ (max (variance.z / (cells.length : ℚ)) 0)⟩

/-- The previous-frame pixel x coordinate of the reprojection in
`TemporalFiltering`: world position through the previous view and projection
matrices, perspective divide, viewport transform. -/
def reprojected_pixel_x (d : Denoiser) (prev cur : G_Buffer) (x y : Int) : ℚ :=
  let wp := cur.pixel_world_position x y
  let canonical_position_4D :=
    prev.projection_matrix.mulVec (prev.view_matrix.mulVec ⟨wp.x, wp.y, wp.z, 1⟩)
  (canonical_position_4D.x / canonical_position_4D.w + 1) / 2 * (d.frame_width : ℚ)

/-- The previous-frame pixel y coordinate of the reprojection. -/
def reprojected_pixel_y (d : Denoiser) (prev cur : G_Buffer) (x y : Int) : ℚ :=
  let wp := cur.pixel_world_position x y
  let canonical_position_4D :=
    prev.projection_matrix.mulVec (prev.view_matrix.mulVec ⟨wp.x, wp.y, wp.z, 1⟩)
  (canonical_position_4D.y / canonical_position_4D.w + 1) / 2 * (d.frame_height : ℚ)

/-- The per-pixel body of `Denoiser::TemporalFiltering` (the inner lambda):
reproject the pixel's world position through the previous frame's stored
matrices; only when the reprojected position lies strictly inside the
viewport and the stored primitive identity matches is the previous color
fetched, clamped to `mean ± tolerance * deviation` over the current frame's
kernel window, and blended with weight `current_frame_weighting`; otherwise
the blend factor stays `1.0` and the output is the pure current-frame
color. -/
def temporal_pixel (d : Denoiser) (prev cur : G_Buffer) (x y : Int) : Vec3Q :=
  let id := cur.primitive_id x y
  let fetched_and_factor : Vec3Q × ℚ :=
    if id ≠ -1 then
      if 0 < reprojected_pixel_x d prev cur x y ∧
         reprojected_pixel_x d prev cur x y < (d.frame_width : ℚ) ∧
         0 < reprojected_pixel_y d prev cur x y ∧
         reprojected_pixel_y d prev cur x y < (d.frame_height : ℚ) then
        if id = prev.primitive_id (truncQ (reprojected_pixel_x d prev cur x y))
            (truncQ (reprojected_pixel_y d prev cur x y)) then
          let color_from_previous :=
            prev.pixel_color (truncQ (reprojected_pixel_x d prev cur x y))
              (truncQ (reprojected_pixel_y d prev cur x y))
          let cells := temporal_cells d x y
          let mean := kernel_mean cur cells
          let deviation := temporal_deviation d cur x y cells
          let clamped := clampVec color_from_previous
            (mean - d.tolerance • deviation) (mean + d.tolerance • deviation)
          (clamped, d.current_frame_weighting)
        else
          (0, 1)
      else
        (0, 1)
    else
      (0, 1)
  (1 - fetched_and_factor.2) • fetched_and_factor.1 +
    fetched_and_factor.2 • cur.pixel_color x y

/-- The embedding of `Denoiser::TemporalFiltering`: when disabled, the pass
is the identity on colors and clears the accessibility flag; when no
previous frame is accessible, the pass is the identity and the current
G-buffer becomes the stored previous frame; otherwise every pixel is
filtered by `temporal_pixel` and the filtered G-buffer becomes the stored
previous frame. -/
def TemporalFiltering (d : Denoiser) (g : G_Buffer) : (Int → Int → Vec3Q) × Denoiser :=
  if !d.using_temporal_filtering then
    (g.pixel_color, { d with accessible_previous_frame := false })
  else if d.accessible_previous_frame then
    let filtered := fun x y => temporal_pixel d d.previous_frame_g_buffer g x y
    (filtered,
     { d with
        previous_frame_g_buffer := { g with pixel_color := filtered }
        accessible_previous_frame := true })
  else
    (g.pixel_color,
     { d with previous_frame_g_buffer := g, accessible_previous_frame := true })

/-- The claim's reading of the clamp window variance: the componentwise mean
squared deviation from the kernel mean (the square of the spec's
`local_stddev`; stated from the spec's words for comparison with the code's
computation, which instead averages squared differences from the center
pixel's color). -/
def claim_local_variance (cur : G_Buffer) (cells : List (Int × Int)) : Vec3Q :=
  ((cells.map (fun c =>
     let diff := cur.pixel_color c.1 c.2 - kernel_mean cur cells
     diff * diff)).foldl (· + ·) 0) / (cells.length : ℚ)

/-- An exact rational square root helper used only to instantiate the
abstract `sqrtQ` parameters at concrete perfect-square inputs in witnesses. -/
def ratSqrt (q : ℚ) : ℚ :=
  (Nat.sqrt q.num.toNat : ℚ) / (Nat.sqrt q.den : ℚ)

/-- The component of a vector along an axis (to state which extent
`longest_axis` selects). -/
def axis_extent (v : Vec3Q) : Axis → ℚ
  | Axis.X_axis => v.x
  | Axis.Y_axis => v.y
  | Axis.Z_axis => v.z

/-- Per-axis slab entry distance in min/max form: with a consistent
reciprocal, the smaller of the two candidate slab distances. -/
def slab_entry (mn mx o r : ℚ) : ℚ :=
  min ((mn - o) * r) ((mx - o) * r)

/-- Per-axis slab exit distance in min/max form. -/
def slab_exit (mn mx o r : ℚ) : ℚ :=
  max ((mn - o) * r) ((mx - o) * r)

/-- Latest slab entry over the three axes (reciprocals recomputed from the
direction). -/
def slab_t_in (b : AABB_3D ℚ) (o d : Vec3Q) : ℚ :=
  max (slab_entry b.min_slab_values.x b.max_slab_values.x o.x (1 / d.x))
    (max (slab_entry b.min_slab_values.y b.max_slab_values.y o.y (1 / d.y))
      (slab_entry b.min_slab_values.z b.max_slab_values.z o.z (1 / d.z)))

/-- Earliest slab exit over the three axes. -/
def slab_t_out (b : AABB_3D ℚ) (o d : Vec3Q) : ℚ :=
  min (slab_exit b.min_slab_values.x b.max_slab_values.x o.x (1 / d.x))
    (min (slab_exit b.min_slab_values.y b.max_slab_values.y o.y (1 / d.y))
      (slab_exit b.min_slab_values.z b.max_slab_values.z o.z (1 / d.z)))

/-- The embedding of `TrianglePrimitive::GetIntersectionRecord`: run the
Möller–Trumbore test and either fill the record at the reported parameter or
return the default record (`m_surface_normal` is the precomputed normalized
cross product, passed in because normalization is abstract; `eid` stands for
the `this` pointer stored into `hitted_entity`, `pid` for the member `id`). -/
def TrianglePrimitive_GetIntersectionRecord (vertice_a vertice_b vertice_c m_surface_normal : Vec3Q)
    (material : WhittedMaterial) (eid : Nat) (pid : Int) (ray : Ray) : IntersectionRecord :=
  let res := RayTriangleIntersection vertice_a vertice_b vertice_c ray.m_origin ray.m_direction
  if res.1 then
    { has_intersection := true
      t := (res.2 : ℚ)
      location := ray.at res.2
      surface_normal := m_surface_normal
      hitted_entity := some eid
      hitted_entity_material := some material
      primitive_id := pid
      emission := 0 }
  else
    IntersectionRecord.mkDefault

/-- A `TrianglePrimitive` packaged as an `Entity` (its box is the two-vertex
box unioned with the third vertex, as in `TrianglePrimitive::Get3DAABB`; the
random surface sample outcome is left unconstrained at the default). -/
def triangleEntity (vertice_a vertice_b vertice_c m_surface_normal : Vec3Q)
    (material : WhittedMaterial) (eid : Nat) (pid : Int) : Entity :=
  ⟨(AABB_3D.of_two_points vertice_a vertice_b).Union_with_point vertice_c,
   TrianglePrimitive_GetIntersectionRecord vertice_a vertice_b vertice_c m_surface_normal material eid pid,
   material.IsEmitting,
   (IntersectionRecord.mkDefault, 0)⟩


/-- The sorted entity list of the three-or-more branch of `build_BVH`:
whatever the sort routine returns for the source's strict
centroid-coordinate comparator along the longest axis of the centroid
bounds. -/
def bvh_sorted (s : SortRoutine) (es : List Entity) : List Entity :=
  s.sortFn (fun a b =>
    decide (centroid_key ((centroid_bounds es).longest_axis) a <
      centroid_key ((centroid_bounds es).longest_axis) b)) es

/-- The first half of the median split in `build_BVH`. -/
def bvh_left_half (s : SortRoutine) (es : List Entity) : List Entity :=
  (bvh_sorted s es).take (es.length / 2)

/-- The second half of the median split in `build_BVH`. -/
def bvh_right_half (s : SortRoutine) (es : List Entity) : List Entity :=
  (bvh_sorted s es).drop (es.length / 2)

/-- A primitive with centroid at the origin carrying a distinguishing tag in
its sample PDF slot, used to exhibit tied centroid keys. -/
def cTieEntity (tag : ℚ) : Entity :=
  ⟨AABB_3D.of_point 0, fun _ => IntersectionRecord.mkDefault, false,
   (IntersectionRecord.mkDefault, tag)⟩

/-- Per-axis slab entry after the sign-conditional swap, as computed inside
`intersects_with_ray`. -/
def swap_in (mn mx o r : ℚ) (neg : Bool) : ℚ :=
  if neg then (mx - o) * r else (mn - o) * r

/-- Per-axis slab exit after the sign-conditional swap. -/
def swap_out (mn mx o r : ℚ) (neg : Bool) : ℚ :=
  if neg then (mn - o) * r else (mx - o) * r

/-- The latest entry `t_in` of `intersects_with_ray` in terms of `swap_in`. -/
def ray_t_in (b : AABB_3D ℚ) (ray : Ray) (recip : Vec3Q) (neg : Vec3 Bool) : ℚ :=
  max (swap_in b.min_slab_values.x b.max_slab_values.x ray.m_origin.x recip.x neg.x)
    (max (swap_in b.min_slab_values.y b.max_slab_values.y ray.m_origin.y recip.y neg.y)
      (swap_in b.min_slab_values.z b.max_slab_values.z ray.m_origin.z recip.z neg.z))

/-- The earliest exit `t_out` of `intersects_with_ray` in terms of `swap_out`. -/
def ray_t_out (b : AABB_3D ℚ) (ray : Ray) (recip : Vec3Q) (neg : Vec3 Bool) : ℚ :=
  min (swap_out b.min_slab_values.x b.max_slab_values.x ray.m_origin.x recip.x neg.x)
    (min (swap_out b.min_slab_values.y b.max_slab_values.y ray.m_origin.y recip.y neg.y)
      (swap_out b.min_slab_values.z b.max_slab_values.z ray.m_origin.z recip.z neg.z))

/-- A concrete triangle primitive (in the plane `x + y + z = 3`) used to
instantiate the traversal equivalence. -/
def witnessTriangleA : Entity :=
  triangleEntity ⟨3, 0, 0⟩ ⟨0, 3, 0⟩ ⟨0, 0, 3⟩ ⟨1, 1, 1⟩ nullMaterial 1 1

/-- A concrete triangle primitive (in the plane `x + y + z = 6`). -/
def witnessTriangleB : Entity :=
  triangleEntity ⟨6, 0, 0⟩ ⟨0, 6, 0⟩ ⟨0, 0, 6⟩ ⟨1, 1, 1⟩ nullMaterial 2 2

/-- The diagonal ray through both witness triangles. -/
def witnessRay : Ray := mkRay ⟨0, 0, 0⟩ ⟨1, 1, 1⟩

/-- The two-leaf BVH over the witness triangles, shaped as `build_BVH` shapes
two-primitive trees. -/
def witnessTree : BVH_Node :=
  BVH_Node.node (BVH_Node.leaf witnessTriangleA.Get3DAABB witnessTriangleA)
    (BVH_Node.leaf witnessTriangleB.Get3DAABB witnessTriangleB)
    (witnessTriangleA.Get3DAABB.Union_with_3D_AABB witnessTriangleB.Get3DAABB)


/-- Lambertian material with unit albedo used in integrator instances. -/
def c4Mat : WhittedMaterial := ⟨false, 0, ⟨1, 1, 1⟩⟩

/-- A concrete renderer state whose BVH trace always reports an occluder at
`t = 199/200` and whose area-light sample sits at distance `1` from the
offset shading point: the occluder lies strictly before the light sample but
within the `0.01` shadow tolerance. -/
def c4Env : RendererState :=
  ⟨fun _ => { has_intersection := true, t := (199/200 : ℚ), location := ⟨0, 0, 199/200⟩,
              surface_normal := ⟨0, 0, -1⟩, hitted_entity := some 9,
              hitted_entity_material := some nullMaterial, primitive_id := 9, emission := 0 },
   { IntersectionRecord.mkDefault with
      location := ⟨0, 0, 1 + 1/100000⟩, surface_normal := ⟨0, 0, -1⟩, emission := ⟨1, 1, 1⟩ },
   1,
   fun _ => 1,
   fun _ => ⟨0, 0, 1⟩,
   fun v => v,
   fun v => v.z⟩

/-- The non-emissive diffuse shading record paired with `c4Env`. -/
def c4Record : IntersectionRecord :=
  { IntersectionRecord.mkDefault with
     has_intersection := true, surface_normal := ⟨0, 0, 1⟩,
     hitted_entity_material := some c4Mat }

/-- A concrete renderer state whose trace always misses and whose roulette
draw always fails the survival test. -/
def c5Env : RendererState :=
  ⟨fun _ => IntersectionRecord.mkDefault, IntersectionRecord.mkDefault, 1,
   fun _ => 1, fun _ => ⟨0, 0, 1⟩, fun v => v, fun v => v.z⟩

/-- An emissive-surface record for the integrator instances. -/
def c5EmissiveRecord : IntersectionRecord :=
  { IntersectionRecord.mkDefault with
     has_intersection := true, hitted_entity_material := some ⟨true, ⟨1, 1, 1⟩, 0⟩ }


/-- Variant of `c4Env` whose occluder sits at `t = 1/2`, well before the
light sample and outside the `0.01` tolerance. -/
def c4BlockedEnv : RendererState :=
  ⟨fun _ => { has_intersection := true, t := (1/2 : ℚ), location := ⟨0, 0, 1/2⟩,
              surface_normal := ⟨0, 0, -1⟩, hitted_entity := some 9,
              hitted_entity_material := some nullMaterial, primitive_id := 9, emission := 0 },
   { IntersectionRecord.mkDefault with
      location := ⟨0, 0, 1 + 1/100000⟩, surface_normal := ⟨0, 0, -1⟩, emission := ⟨1, 1, 1⟩ },
   1,
   fun _ => 1,
   fun _ => ⟨0, 0, 1⟩,
   fun v => v,
   fun v => v.z⟩

/-- A concrete emissive triangle entity (the area light of the instances). -/
def c4EmissiveEntity : Entity :=
  triangleEntity ⟨0, 0, 0⟩ ⟨1, 0, 0⟩ ⟨0, 1, 0⟩ ⟨0, 0, 1⟩ ⟨true, ⟨1, 1, 1⟩, 0⟩ 3 3


/-- A concrete 2x2 current-frame G-buffer for the temporal instances: all
pixels hit primitive `5` at the world origin; kernel colors are `0` except
pixel `(0,1)` whose color is `2`. -/
def c8CurBuffer : G_Buffer :=
  { pixel_world_position := fun _ _ => ⟨0, 0, 0⟩
    pixel_color := fun i j => if i = 0 ∧ j = 1 then ⟨2, 2, 2⟩ else 0
    pixel_world_surface_normal := fun _ _ => ⟨0, 0, 1⟩
    contributor := fun _ _ => 1
    primitive_id := fun _ _ => 5
    projection_matrix := Mat4.identity
    view_matrix := Mat4.identity }

/-- The concrete previous-frame G-buffer: identity camera matrices, the same
primitive id `5` everywhere, and history color `7/5` in every channel. -/
def c8PrevBuffer : G_Buffer :=
  { pixel_world_position := fun _ _ => ⟨0, 0, 0⟩
    pixel_color := fun _ _ => ⟨7/5, 7/5, 7/5⟩
    pixel_world_surface_normal := fun _ _ => ⟨0, 0, 1⟩
    contributor := fun _ _ => 1
    primitive_id := fun _ _ => 5
    projection_matrix := Mat4.identity
    view_matrix := Mat4.identity }

/-- The concrete denoiser state for the temporal instances: 2x2 viewport,
tolerance `1`, current-frame weight `0` (so the output is exactly the
clamped history color), exact square root. -/
def c8Denoiser : Denoiser :=
  { using_temporal_filtering := true
    Temporal_FilterKernelHalfSize := 3
    tolerance := 1
    current_frame_weighting := 0
    accessible_previous_frame := true
    frame_width := 2
    frame_height := 2
    previous_frame_g_buffer := c8PrevBuffer
    sqrtQ := ratSqrt }


/-- The current-frame buffer with no valid geometry anywhere
(`primitive_id = -1`). -/
def c8MissBuffer : G_Buffer :=
  { pixel_world_position := fun _ _ => ⟨0, 0, 0⟩
    pixel_color := fun _ _ => ⟨1/3, 1/3, 1/3⟩
    pixel_world_surface_normal := fun _ _ => ⟨0, 0, 1⟩
    contributor := fun _ _ => 0
    primitive_id := fun _ _ => -1
    projection_matrix := Mat4.identity
    view_matrix := Mat4.identity }

/-! ## Theorems -/

@[simp] theorem Vec3.add_x (a b : Vec3Q) : (a + b).x = a.x + b.x := rfl

@[simp] theorem Vec3.add_y (a b : Vec3Q) : (a + b).y = a.y + b.y := rfl

@[simp] theorem Vec3.add_z (a b : Vec3Q) : (a + b).z = a.z + b.z := rfl

@[simp] theorem Vec3.sub_x (a b : Vec3Q) : (a - b).x = a.x - b.x := rfl

@[simp] theorem Vec3.sub_y (a b : Vec3Q) : (a - b).y = a.y - b.y := rfl

@[simp] theorem Vec3.sub_z (a b : Vec3Q) : (a - b).z = a.z - b.z := rfl

@[simp] theorem Vec3.neg_x (a : Vec3Q) : (-a).x = -a.x := rfl

@[simp] theorem Vec3.neg_y (a : Vec3Q) : (-a).y = -a.y := rfl

@[simp] theorem Vec3.neg_z (a : Vec3Q) : (-a).z = -a.z := rfl

@[simp] theorem Vec3.mul_x (a b : Vec3Q) : (a * b).x = a.x * b.x := rfl

@[simp] theorem Vec3.mul_y (a b : Vec3Q) : (a * b).y = a.y * b.y := rfl

@[simp] theorem Vec3.mul_z (a b : Vec3Q) : (a * b).z = a.z * b.z := rfl

@[simp] theorem Vec3.smul_x (q : ℚ) (a : Vec3Q) : (q • a).x = q * a.x := rfl

@[simp] theorem Vec3.smul_y (q : ℚ) (a : Vec3Q) : (q • a).y = q * a.y := rfl

@[simp] theorem Vec3.smul_z (q : ℚ) (a : Vec3Q) : (q • a).z = q * a.z := rfl

@[simp] theorem Vec3.divQ_x (a : Vec3Q) (q : ℚ) : (a / q).x = a.x / q := rfl

@[simp] theorem Vec3.divQ_y (a : Vec3Q) (q : ℚ) : (a / q).y = a.y / q := rfl

@[simp] theorem Vec3.divQ_z (a : Vec3Q) (q : ℚ) : (a / q).z = a.z / q := rfl

@[simp] theorem Vec3.zero_x : (0 : Vec3Q).x = 0 := rfl

@[simp] theorem Vec3.zero_y : (0 : Vec3Q).y = 0 := rfl

@[simp] theorem Vec3.zero_z : (0 : Vec3Q).z = 0 := rfl

/-- Extensionality for `Vec3Q` equalities in componentwise form. -/
theorem Vec3.ext_iff_Q (a b : Vec3Q) : a = b ↔ a.x = b.x ∧ a.y = b.y ∧ a.z = b.z := by
  constructor
  · rintro rfl; exact ⟨rfl, rfl, rfl⟩
  · obtain ⟨ax, ay, az⟩ := a
    obtain ⟨bx, bby, bz⟩ := b
    rintro ⟨h1, h2, h3⟩
    simp only at h1 h2 h3
    rw [h1, h2, h3]

/-- C9, counterexample: for the box `[0,2] x [0,2] x [0,1]` the X and Y
extents tie for the largest, so the claimed X-first tie-break would return
`X_axis`, but `longest_axis` returns `Y_axis`. -/
theorem c9_longest_axis_counterexample :
    (AABB_3D.mk ⟨0, 0, 0⟩ ⟨2, 2, 1⟩ : AABB_3D ℚ).diagonal_vector.x =
      (AABB_3D.mk ⟨0, 0, 0⟩ ⟨2, 2, 1⟩ : AABB_3D ℚ).diagonal_vector.y ∧
    (AABB_3D.mk ⟨0, 0, 0⟩ ⟨2, 2, 1⟩ : AABB_3D ℚ).diagonal_vector.x >
      (AABB_3D.mk ⟨0, 0, 0⟩ ⟨2, 2, 1⟩ : AABB_3D ℚ).diagonal_vector.z ∧
    (AABB_3D.mk ⟨0, 0, 0⟩ ⟨2, 2, 1⟩ : AABB_3D ℚ).longest_axis ≠ Axis.X_axis := by
  refine ⟨by norm_num [AABB_3D.diagonal_vector], by norm_num [AABB_3D.diagonal_vector], ?_⟩
  norm_num [AABB_3D.longest_axis, AABB_3D.diagonal_vector]
  exact fun h => Axis.noConfusion h

/-- C9, amended: `longest_axis` always returns an axis whose extent equals
the largest extent of the box's diagonal, but ties are broken toward the
later axis in the order X, Y, Z: `X_axis` is returned only when the X extent
is strictly largest, `Y_axis` when X is not strictly largest and the Y
extent strictly exceeds the Z extent, and `Z_axis` otherwise. -/
theorem c9_longest_axis_amended (b : AABB_3D ℚ) :
    axis_extent b.diagonal_vector b.longest_axis =
      max b.diagonal_vector.x (max b.diagonal_vector.y b.diagonal_vector.z) ∧
    (b.longest_axis = Axis.X_axis ↔
      b.diagonal_vector.x > b.diagonal_vector.y ∧ b.diagonal_vector.x > b.diagonal_vector.z) ∧
    (b.longest_axis = Axis.Y_axis ↔
      ¬(b.diagonal_vector.x > b.diagonal_vector.y ∧ b.diagonal_vector.x > b.diagonal_vector.z) ∧
        b.diagonal_vector.y > b.diagonal_vector.z) ∧
    (b.longest_axis = Axis.Z_axis ↔
      ¬(b.diagonal_vector.x > b.diagonal_vector.y ∧ b.diagonal_vector.x > b.diagonal_vector.z) ∧
        ¬(b.diagonal_vector.y > b.diagonal_vector.z)) := by
  unfold AABB_3D.longest_axis
  set dv := b.diagonal_vector with hdv
  by_cases h1 : dv.x > dv.y ∧ dv.x > dv.z
  · obtain ⟨hxy, hxz⟩ := h1
    simp only [hxy, hxz, and_self, if_true, axis_extent]
    refine ⟨?_, by simp [hxy, hxz], by simp [hxy, hxz], by simp [hxy, hxz]⟩
    exact (max_eq_left (max_le (le_of_lt hxy) (le_of_lt hxz))).symm
  · by_cases h2 : dv.y > dv.z
    · simp only [h1, if_false, h2, if_true, axis_extent]
      have hxy : dv.x ≤ dv.y := by
        rcases not_and_or.mp h1 with h | h
        · exact le_of_not_lt h
        · exact le_trans (le_of_not_lt h) (le_of_lt h2)
      refine ⟨?_, by simp [h1], by simp [h1, h2], by simp [h2]⟩
      rw [max_eq_left (le_of_lt h2), max_eq_right hxy]
    · simp only [h1, if_false, h2, axis_extent]
      have hyz : dv.y ≤ dv.z := le_of_not_lt h2
      have hxz : dv.x ≤ dv.z := by
        rcases not_and_or.mp h1 with h | h
        · exact le_trans (le_of_not_lt h) hyz
        · exact le_of_not_lt h
      refine ⟨?_, by simp [h1], by simp [h2], by simp [h1, h2]⟩
      rw [max_eq_right hyz, max_eq_right hxz]

/-- C6, counterexample: the empty box fails the box-box intersection test
against itself (and against any other empty box), while it passes the test
against the non-empty all-encompassing box, so "always fail ... except
against itself or another empty box" is false in both directions. -/
theorem c6_empty_box_counterexample :
    AABB_3D.empty.intersects_with_3D_AABB AABB_3D.empty = false ∧
    AABB_3D.empty.intersects_with_3D_AABB AABB_3D.everything = true ∧
    AABB_3D.everything ≠ AABB_3D.empty := by
  refine ⟨?_, ?_, ?_⟩ <;> decide

/-- C6, amended: union of boxes contains every point of either operand and
never shrinks the enclosing extent, is commutative and associative, and the
empty box is the identity element for union; the empty box contains no
point, and its box-box intersection test succeeds exactly against the
all-encompassing box `min = -inf, max = +inf` (in particular it fails
against itself and every other box, empty ones included). -/
theorem c6_union_algebra_amended (A B C : AABB_3D FRat) (p : Vec3 FRat) :
    (A.contains_point p = true → (A.Union_with_3D_AABB B).contains_point p = true) ∧
    (B.contains_point p = true → (A.Union_with_3D_AABB B).contains_point p = true) ∧
    Vec3.le (A.Union_with_3D_AABB B).min_slab_values A.min_slab_values ∧
    Vec3.le A.max_slab_values (A.Union_with_3D_AABB B).max_slab_values ∧
    A.Union_with_3D_AABB B = B.Union_with_3D_AABB A ∧
    (A.Union_with_3D_AABB B).Union_with_3D_AABB C =
      A.Union_with_3D_AABB (B.Union_with_3D_AABB C) ∧
    A.Union_with_3D_AABB AABB_3D.empty = A ∧
    AABB_3D.empty.contains_point p = false ∧
    (AABB_3D.empty.intersects_with_3D_AABB A = true ↔ A = AABB_3D.everything) := by
  refine ⟨?_, ?_, ?_, ?_, ?_, ?_, ?_, ?_, ?_⟩
  · simp only [AABB_3D.contains_point, AABB_3D.Union_with_3D_AABB, Vec3.minV, Vec3.maxV,
      Bool.and_eq_true, decide_eq_true_eq]
    rintro ⟨⟨⟨hx1, hx2⟩, hy1, hy2⟩, hz1, hz2⟩
    exact ⟨⟨⟨le_trans (min_le_left _ _) hx1, le_trans hx2 (le_max_left _ _)⟩,
      le_trans (min_le_left _ _) hy1, le_trans hy2 (le_max_left _ _)⟩,
      le_trans (min_le_left _ _) hz1, le_trans hz2 (le_max_left _ _)⟩
  · simp only [AABB_3D.contains_point, AABB_3D.Union_with_3D_AABB, Vec3.minV, Vec3.maxV,
      Bool.and_eq_true, decide_eq_true_eq]
    rintro ⟨⟨⟨hx1, hx2⟩, hy1, hy2⟩, hz1, hz2⟩
    exact ⟨⟨⟨le_trans (min_le_right _ _) hx1, le_trans hx2 (le_max_right _ _)⟩,
      le_trans (min_le_right _ _) hy1, le_trans hy2 (le_max_right _ _)⟩,
      le_trans (min_le_right _ _) hz1, le_trans hz2 (le_max_right _ _)⟩
  · exact ⟨min_le_left _ _, min_le_left _ _, min_le_left _ _⟩
  · exact ⟨le_max_left _ _, le_max_left _ _, le_max_left _ _⟩
  · simp [AABB_3D.Union_with_3D_AABB, Vec3.minV, Vec3.maxV, min_comm, max_comm]
  · simp [AABB_3D.Union_with_3D_AABB, Vec3.minV, Vec3.maxV, min_assoc, max_assoc]
  · simp [AABB_3D.Union_with_3D_AABB, AABB_3D.empty, Vec3.minV, Vec3.maxV,
      min_eq_left le_top, max_eq_left bot_le]
  · rw [Bool.eq_false_iff]
    intro h
    simp only [AABB_3D.contains_point, AABB_3D.empty, Bool.and_eq_true, decide_eq_true_eq] at h
    obtain ⟨⟨⟨hx1, hx2⟩, _, _⟩, _, _⟩ := h
    exact absurd (le_trans hx1 hx2) (not_le.mpr bot_lt_top)
  · simp only [AABB_3D.intersects_with_3D_AABB, AABB_3D.empty,
      Bool.and_eq_true, decide_eq_true_eq, ge_iff_le, le_bot_iff, top_le_iff]
    constructor
    · rintro ⟨⟨⟨hx1, hx2⟩, hy1, hy2⟩, hz1, hz2⟩
      obtain ⟨⟨ax, ay, az⟩, bx, bb, bz⟩ := A
      simp only at hx1 hx2 hy1 hy2 hz1 hz2
      subst hx1 hx2 hy1 hy2 hz1 hz2
      rfl
    · rintro rfl
      simp [AABB_3D.everything]

/-- C6, witness instance: a concrete point of `A` is contained in a concrete
union, and union with the empty box returns `A` unchanged. -/
theorem c6_union_algebra_amended_witness :
    ((AABB_3D.mk ⟨0, 0, 0⟩ ⟨1, 1, 1⟩ : AABB_3D FRat).Union_with_3D_AABB
        (AABB_3D.mk ⟨2, 2, 2⟩ ⟨3, 3, 3⟩)).contains_point ⟨0, 0, 0⟩ = true ∧
    (AABB_3D.mk ⟨0, 0, 0⟩ ⟨1, 1, 1⟩ : AABB_3D FRat).Union_with_3D_AABB AABB_3D.empty =
      AABB_3D.mk ⟨0, 0, 0⟩ ⟨1, 1, 1⟩ :=
  ⟨(c6_union_algebra_amended (AABB_3D.mk ⟨0, 0, 0⟩ ⟨1, 1, 1⟩) (AABB_3D.mk ⟨2, 2, 2⟩ ⟨3, 3, 3⟩)
      (AABB_3D.mk ⟨2, 2, 2⟩ ⟨3, 3, 3⟩) ⟨0, 0, 0⟩).1 (by decide),
   (c6_union_algebra_amended (AABB_3D.mk ⟨0, 0, 0⟩ ⟨1, 1, 1⟩) (AABB_3D.mk ⟨2, 2, 2⟩ ⟨3, 3, 3⟩)
      (AABB_3D.mk ⟨2, 2, 2⟩ ⟨3, 3, 3⟩) ⟨0, 0, 0⟩).2.2.2.2.2.2.1⟩

/-- Per-axis slab distances after the sign-conditional swap agree with the
min/max formulation when the box slab is properly ordered. -/
theorem slab_swap_eq (mn mx o d : ℚ) (hd : d ≠ 0) (hle : mn ≤ mx) :
    ((if d < 0 then (mx - o) * (1 / d) else (mn - o) * (1 / d)) = slab_entry mn mx o (1 / d)) ∧
    ((if d < 0 then (mn - o) * (1 / d) else (mx - o) * (1 / d)) = slab_exit mn mx o (1 / d)) := by
  rcases lt_or_gt_of_ne hd with hneg | hpos
  · have hr : (1 / d) ≤ 0 := le_of_lt (one_div_neg.mpr hneg)
    have hmul : (mx - o) * (1 / d) ≤ (mn - o) * (1 / d) :=
      mul_le_mul_of_nonpos_right (by linarith) hr
    rw [if_pos hneg, if_pos hneg, slab_entry, slab_exit,
      min_eq_right hmul, max_eq_left hmul]
    exact ⟨rfl, rfl⟩
  · have hr : 0 ≤ (1 / d) := le_of_lt (one_div_pos.mpr hpos)
    have hmul : (mn - o) * (1 / d) ≤ (mx - o) * (1 / d) :=
      mul_le_mul_of_nonneg_right (by linarith) hr
    rw [if_neg (not_lt.mpr (le_of_lt hpos)), if_neg (not_lt.mpr (le_of_lt hpos)),
      slab_entry, slab_exit, min_eq_left hmul, max_eq_right hmul]
    exact ⟨rfl, rfl⟩

/-- The slab entry distance is non-positive when the origin coordinate lies
inside the slab, for any reciprocal value. -/
theorem slab_entry_nonpos (mn mx o r : ℚ) (h1 : mn ≤ o) (h2 : o ≤ mx) :
    slab_entry mn mx o r ≤ 0 := by
  rcases le_or_lt 0 r with hr | hr
  · exact le_trans (min_le_left _ _) (mul_nonpos_of_nonpos_of_nonneg (by linarith) hr)
  · exact le_trans (min_le_right _ _)
      (mul_nonpos_of_nonneg_of_nonpos (by linarith) (le_of_lt hr))

/-- The slab exit distance is non-negative when the origin coordinate lies
inside the slab, for any reciprocal value. -/
theorem slab_exit_nonneg (mn mx o r : ℚ) (h1 : mn ≤ o) (h2 : o ≤ mx) :
    0 ≤ slab_exit mn mx o r := by
  rcases le_or_lt 0 r with hr | hr
  · exact le_trans (mul_nonneg (by linarith) hr) (le_max_right _ _)
  · have : 0 ≤ (mn - o) * r := by nlinarith
    exact le_trans this (le_max_left _ _)

/-- The source slab test, rewritten with the per-axis min/max entry and exit
distances, under the no-axis-aligned-direction precondition. -/
theorem intersects_with_ray_min_max (b : AABB_3D ℚ) (o d : Vec3Q)
    (hx : d.x ≠ 0) (hy : d.y ≠ 0) (hz : d.z ≠ 0)
    (hbox : Vec3.le b.min_slab_values b.max_slab_values) :
    AABB_3D.intersects_with_ray b (mkRay o d) (mkRay o d).direction_reciprocal
        (ray_negative_flags (mkRay o d)) =
      (decide (0 ≤ slab_t_out b o d) && decide (slab_t_in b o d ≤ slab_t_out b o d)) := by
  obtain ⟨h1, h2, h3⟩ := hbox
  have ex := slab_swap_eq b.min_slab_values.x b.max_slab_values.x o.x d.x hx h1
  have ey := slab_swap_eq b.min_slab_values.y b.max_slab_values.y o.y d.y hy h2
  have ez := slab_swap_eq b.min_slab_values.z b.max_slab_values.z o.z d.z hz h3
  simp only [AABB_3D.intersects_with_ray, mkRay, ray_negative_flags, decide_eq_true_eq,
    apply_ite (Prod.fst (α := ℚ) (β := ℚ)), apply_ite (Prod.snd (α := ℚ) (β := ℚ))]
  rw [ex.1, ex.2, ey.1, ey.2, ez.1, ez.2]
  simp only [slab_t_in, slab_t_out, ge_iff_le]

/-- C2: for every properly ordered box and every ray with no axis-aligned
direction component, the slab test computes per-axis entry/exit distances
with the cached reciprocal (swapping them on axes with negative direction),
takes the greatest entry and the least exit, and succeeds if and only if the
exit is non-negative and the entry does not exceed the exit; a ray whose
origin lies inside the box always reports a hit. -/
theorem c2_slab_test (b : AABB_3D ℚ) (o d : Vec3Q)
    (hx : d.x ≠ 0) (hy : d.y ≠ 0) (hz : d.z ≠ 0)
    (hbox : Vec3.le b.min_slab_values b.max_slab_values) :
    (AABB_3D.intersects_with_ray b (mkRay o d) (mkRay o d).direction_reciprocal
        (ray_negative_flags (mkRay o d)) = true ↔
      0 ≤ slab_t_out b o d ∧ slab_t_in b o d ≤ slab_t_out b o d) ∧
    (b.contains_point o = true →
      AABB_3D.intersects_with_ray b (mkRay o d) (mkRay o d).direction_reciprocal
        (ray_negative_flags (mkRay o d)) = true) := by
  have hmain := intersects_with_ray_min_max b o d hx hy hz hbox
  constructor
  · rw [hmain]
    simp [Bool.and_eq_true, decide_eq_true_eq]
  · intro hin
    simp only [AABB_3D.contains_point, Bool.and_eq_true, decide_eq_true_eq] at hin
    obtain ⟨⟨⟨hx1, hx2⟩, hy1, hy2⟩, hz1, hz2⟩ := hin
    rw [hmain]
    have hout : 0 ≤ slab_t_out b o d :=
      le_min (slab_exit_nonneg _ _ _ _ hx1 hx2)
        (le_min (slab_exit_nonneg _ _ _ _ hy1 hy2) (slab_exit_nonneg _ _ _ _ hz1 hz2))
    have hin' : slab_t_in b o d ≤ 0 :=
      max_le (slab_entry_nonpos _ _ _ _ hx1 hx2)
        (max_le (slab_entry_nonpos _ _ _ _ hy1 hy2) (slab_entry_nonpos _ _ _ _ hz1 hz2))
    simp [Bool.and_eq_true, decide_eq_true_eq]
    exact ⟨hout, le_trans hin' hout⟩

/-- C2, witness instance: the unit box is hit by a concrete ray starting at
its center. -/
theorem c2_slab_test_witness :
    AABB_3D.intersects_with_ray (AABB_3D.mk ⟨0, 0, 0⟩ ⟨1, 1, 1⟩)
      (mkRay ⟨1/2, 1/2, 1/2⟩ ⟨1, 2, 3⟩) (mkRay ⟨1/2, 1/2, 1/2⟩ ⟨1, 2, 3⟩).direction_reciprocal
      (ray_negative_flags (mkRay ⟨1/2, 1/2, 1/2⟩ ⟨1, 2, 3⟩)) = true := by
  refine (c2_slab_test (AABB_3D.mk ⟨0, 0, 0⟩ ⟨1, 1, 1⟩) ⟨1/2, 1/2, 1/2⟩ ⟨1, 2, 3⟩
    (by norm_num) (by norm_num) (by norm_num) ?_).2 ?_
  · refine ⟨by norm_num, by norm_num, by norm_num⟩
  · simp only [AABB_3D.contains_point, Bool.and_eq_true, decide_eq_true_eq]
    norm_num

/-- C7: for every triangle and ray whose Möller–Trumbore denominator is
non-zero, `RayTriangleIntersection` writes the ray parameter of the
cross-product solution `(t, u, v)` of the linear system
`origin + t*dir = (1-u-v)*v1 + u*v2 + v*v3`, and reports an intersection
exactly when `t > 0`, `u > 0`, `v > 0` and `u + v < 1` (all strict, so edge
and vertex grazes are rejected). -/
theorem c7_ray_triangle_intersection (v1 v2 v3 o d : Vec3Q)
    (hden : dotV (crossV d (v3 - v1)) (v2 - v1) ≠ 0) :
    ((RayTriangleIntersection v1 v2 v3 o d).2 =
      dotV (crossV (o - v1) (v2 - v1)) (v3 - v1) / dotV (crossV d (v3 - v1)) (v2 - v1)) ∧
    ((RayTriangleIntersection v1 v2 v3 o d).1 = true ↔
      0 < dotV (crossV (o - v1) (v2 - v1)) (v3 - v1) / dotV (crossV d (v3 - v1)) (v2 - v1) ∧
      0 < dotV (crossV d (v3 - v1)) (o - v1) / dotV (crossV d (v3 - v1)) (v2 - v1) ∧
      0 < dotV (crossV (o - v1) (v2 - v1)) d / dotV (crossV d (v3 - v1)) (v2 - v1) ∧
      dotV (crossV d (v3 - v1)) (o - v1) / dotV (crossV d (v3 - v1)) (v2 - v1) +
        dotV (crossV (o - v1) (v2 - v1)) d / dotV (crossV d (v3 - v1)) (v2 - v1) < 1) ∧
    (o + (dotV (crossV (o - v1) (v2 - v1)) (v3 - v1) / dotV (crossV d (v3 - v1)) (v2 - v1)) • d =
      ((1 - dotV (crossV d (v3 - v1)) (o - v1) / dotV (crossV d (v3 - v1)) (v2 - v1)
          - dotV (crossV (o - v1) (v2 - v1)) d / dotV (crossV d (v3 - v1)) (v2 - v1)) • v1 +
        (dotV (crossV d (v3 - v1)) (o - v1) / dotV (crossV d (v3 - v1)) (v2 - v1)) • v2) +
        (dotV (crossV (o - v1) (v2 - v1)) d / dotV (crossV d (v3 - v1)) (v2 - v1)) • v3) := by
  refine ⟨?_, ?_, ?_⟩
  · simp only [RayTriangleIntersection]
    exact mul_one_div _ _
  · simp only [RayTriangleIntersection, Bool.and_eq_true, decide_eq_true_eq, mul_one_div]
    constructor
    · rintro ⟨⟨⟨h1, h2⟩, h3⟩, h4⟩
      exact ⟨h1, h2, h3, by linarith⟩
    · rintro ⟨h1, h2, h3, h4⟩
      exact ⟨⟨⟨h1, h2⟩, h3⟩, by linarith⟩
  · rw [Vec3.ext_iff_Q]
    simp only [dotV, crossV, Vec3.sub_x, Vec3.sub_y, Vec3.sub_z, Vec3.add_x, Vec3.add_y,
      Vec3.add_z, Vec3.smul_x, Vec3.smul_y, Vec3.smul_z] at hden ⊢
    refine ⟨?_, ?_, ?_⟩ <;> (field_simp; ring)

/-- C7, witness instance: a concrete ray through the interior of a concrete
triangle, with non-zero denominator, reports a hit with `t = 1`. -/
theorem c7_ray_triangle_intersection_witness :
    (RayTriangleIntersection ⟨0, 0, 0⟩ ⟨1, 0, 0⟩ ⟨0, 1, 0⟩ ⟨1/4, 1/4, 1⟩ ⟨0, 0, -1⟩).1 = true ∧
    (RayTriangleIntersection ⟨0, 0, 0⟩ ⟨1, 0, 0⟩ ⟨0, 1, 0⟩ ⟨1/4, 1/4, 1⟩ ⟨0, 0, -1⟩).2 = 1 := by
  have h := c7_ray_triangle_intersection ⟨0, 0, 0⟩ ⟨1, 0, 0⟩ ⟨0, 1, 0⟩ ⟨1/4, 1/4, 1⟩ ⟨0, 0, -1⟩
    (by norm_num [dotV, crossV])
  refine ⟨h.2.1.mpr ?_, ?_⟩
  · norm_num [dotV, crossV]
  · rw [h.1]
    norm_num [dotV, crossV]

/-- C10: `QuadraticFormula` always delivers its two roots ordered
`x_small ≤ x_large` (for any square-root routine), and
`Sphere::GetIntersectionRecord` keeps the smaller root when it is
non-negative, falls back to the larger root when only that one is
non-negative (a ray starting inside the sphere still reports the exit hit),
and otherwise — as when the discriminant is negative — leaves the default
no-hit record unchanged. -/
theorem c10_sphere_intersection (s : Sphere) (sqrtQ : ℚ → ℚ)
    (normalizeV : Vec3Q → Vec3Q) (ray : Ray) :
    (∀ A B C xs xl : ℚ, QuadraticFormula sqrtQ A B C = some (xs, xl) → xs ≤ xl) ∧
    (QuadraticFormula sqrtQ (dotV ray.m_direction ray.m_direction)
        (2 * dotV ray.m_direction (ray.m_origin - s.m_center))
        (dotV (ray.m_origin - s.m_center) (ray.m_origin - s.m_center) - s.radius_squared) = none →
      s.GetIntersectionRecord sqrtQ normalizeV ray = IntersectionRecord.mkDefault) ∧
    (∀ t_small t_large : ℚ,
      QuadraticFormula sqrtQ (dotV ray.m_direction ray.m_direction)
          (2 * dotV ray.m_direction (ray.m_origin - s.m_center))
          (dotV (ray.m_origin - s.m_center) (ray.m_origin - s.m_center) - s.radius_squared) =
        some (t_small, t_large) →
      ((0 ≤ t_small →
        (s.GetIntersectionRecord sqrtQ normalizeV ray).has_intersection = true ∧
        (s.GetIntersectionRecord sqrtQ normalizeV ray).t = (t_small : ℚ)) ∧
       (t_small < 0 → 0 ≤ t_large →
        (s.GetIntersectionRecord sqrtQ normalizeV ray).has_intersection = true ∧
        (s.GetIntersectionRecord sqrtQ normalizeV ray).t = (t_large : ℚ)) ∧
       (t_small < 0 → t_large < 0 →
        s.GetIntersectionRecord sqrtQ normalizeV ray = IntersectionRecord.mkDefault))) := by
  refine ⟨?_, ?_, ?_⟩
  · intro A B C xs xl h
    have key : ∀ p : ℚ × ℚ,
        (if p.1 > p.2 then some (p.2, p.1) else some (p.1, p.2)) = some (xs, xl) → xs ≤ xl := by
      intro p hp
      split at hp
      · simp only [Option.some.injEq, Prod.mk.injEq] at hp
        rename_i hgt
        rw [← hp.1, ← hp.2]
        exact le_of_lt hgt
      · simp only [Option.some.injEq, Prod.mk.injEq] at hp
        rename_i hle
        rw [← hp.1, ← hp.2]
        exact le_of_not_lt hle
    simp only [QuadraticFormula] at h
    split at h
    · exact Option.noConfusion h
    · exact key _ h
  · intro h
    simp only [Sphere.GetIntersectionRecord]
    rw [h]
  · intro t_small t_large h
    refine ⟨?_, ?_, ?_⟩
    · intro hts
      simp only [Sphere.GetIntersectionRecord]
      rw [h]
      simp [not_lt.mpr hts]
    · intro hts htl
      simp only [Sphere.GetIntersectionRecord]
      rw [h]
      simp [hts, not_lt.mpr htl]
    · intro hts htl
      simp only [Sphere.GetIntersectionRecord]
      rw [h]
      simp [hts, htl]

/-- C10, witness instance: a concrete sphere and ray whose quadratic has
roots `2` and `4`; the returned record is a hit at the smaller root `t = 2`,
and the delivered roots are ordered. -/
theorem c10_sphere_intersection_witness :
    ((Sphere.mk ⟨0, 0, 3⟩ 1 nullMaterial 7).GetIntersectionRecord (fun _ => 2) (fun v => v)
        (mkRay ⟨0, 0, 0⟩ ⟨0, 0, 1⟩)).has_intersection = true ∧
    ((Sphere.mk ⟨0, 0, 3⟩ 1 nullMaterial 7).GetIntersectionRecord (fun _ => 2) (fun v => v)
        (mkRay ⟨0, 0, 0⟩ ⟨0, 0, 1⟩)).t = (2 : ℚ) ∧
    (2 : ℚ) ≤ 4 := by
  have hqf : QuadraticFormula (fun _ => 2)
      (dotV (mkRay ⟨0, 0, 0⟩ ⟨0, 0, 1⟩).m_direction (mkRay ⟨0, 0, 0⟩ ⟨0, 0, 1⟩).m_direction)
      (2 * dotV (mkRay ⟨0, 0, 0⟩ ⟨0, 0, 1⟩).m_direction
        ((mkRay ⟨0, 0, 0⟩ ⟨0, 0, 1⟩).m_origin - (Sphere.mk ⟨0, 0, 3⟩ 1 nullMaterial 7).m_center))
      (dotV ((mkRay ⟨0, 0, 0⟩ ⟨0, 0, 1⟩).m_origin - (Sphere.mk ⟨0, 0, 3⟩ 1 nullMaterial 7).m_center)
        ((mkRay ⟨0, 0, 0⟩ ⟨0, 0, 1⟩).m_origin - (Sphere.mk ⟨0, 0, 3⟩ 1 nullMaterial 7).m_center) -
        (Sphere.mk ⟨0, 0, 3⟩ 1 nullMaterial 7).radius_squared) = some (2, 4) := by
    norm_num [QuadraticFormula, dotV, mkRay, Sphere.radius_squared]
  have h := c10_sphere_intersection (Sphere.mk ⟨0, 0, 3⟩ 1 nullMaterial 7) (fun _ => 2)
    (fun v => v) (mkRay ⟨0, 0, 0⟩ ⟨0, 0, 1⟩)
  have h2 := (h.2.2 2 4 hqf).1 (by norm_num)
  exact ⟨h2.1, h2.2, h.1 1 (-6) 8 2 4 (by norm_num [QuadraticFormula]) ⟩

/-- The three-or-more case equation of `build_BVH`, for any sort routine. -/
theorem build_BVH_cons3 (s : SortRoutine) (e1 e2 e3 : Entity) (rest : List Entity) :
    build_BVH s (e1 :: e2 :: e3 :: rest) =
      BVH_Node.node
        (build_BVH s (bvh_left_half s (e1 :: e2 :: e3 :: rest)))
        (build_BVH s (bvh_right_half s (e1 :: e2 :: e3 :: rest)))
        ((build_BVH s (bvh_left_half s (e1 :: e2 :: e3 :: rest))).bounding_volume.Union_with_3D_AABB
          (build_BVH s (bvh_right_half s (e1 :: e2 :: e3 :: rest))).bounding_volume) := by
  rw [build_BVH]
  simp only [bvh_left_half, bvh_right_half, bvh_sorted]

/-- For any sort routine that returns permutations (as every valid
`std::sort` does), the finished BVH stores exactly the input primitives. -/
theorem build_BVH_entities_perm (s : SortRoutine)
    (hperm : ∀ cmp l, (s.sortFn cmp l).Perm l) :
    ∀ (n : ℕ) (es : List Entity), es.length ≤ n → es ≠ [] →
      (build_BVH s es).entities.Perm es := by
  intro n
  induction n with
  | zero =>
    intro es hlen hne
    rw [Nat.le_zero, List.length_eq_zero] at hlen
    exact absurd hlen hne
  | succ n ih =>
    intro es hlen hne
    match es, hne with
    | [e], _ =>
      simp only [build_BVH, BVH_Node.entities]
      exact List.Perm.refl _
    | [e1, e2], _ =>
      simp only [build_BVH, BVH_Node.entities, List.singleton_append]
      exact List.Perm.refl _
    | e1 :: e2 :: e3 :: rest, _ =>
      rw [build_BVH_cons3]
      have hsortlen : (bvh_sorted s (e1 :: e2 :: e3 :: rest)).length =
          (e1 :: e2 :: e3 :: rest).length := s.length_eq _ _
      have hllen : (bvh_left_half s (e1 :: e2 :: e3 :: rest)).length = (rest.length + 3) / 2 := by
        simp only [bvh_left_half, List.length_take, hsortlen, List.length_cons]
        omega
      have hrlen : (bvh_right_half s (e1 :: e2 :: e3 :: rest)).length =
          rest.length + 3 - (rest.length + 3) / 2 := by
        simp only [bvh_right_half, List.length_drop, hsortlen, List.length_cons]
      have hlentot : (e1 :: e2 :: e3 :: rest).length = rest.length + 3 := by
        simp only [List.length_cons]
      rw [hlentot] at hlen
      have hL := ih (bvh_left_half s (e1 :: e2 :: e3 :: rest))
        (by rw [hllen]; omega)
        (by rw [← List.length_pos, hllen]; omega)
      have hR := ih (bvh_right_half s (e1 :: e2 :: e3 :: rest))
        (by rw [hrlen]; omega)
        (by rw [← List.length_pos, hrlen]; omega)
      simp only [BVH_Node.entities]
      refine (hL.append hR).trans ?_
      rw [bvh_left_half, bvh_right_half, List.take_append_drop]
      exact hperm _ _

/-- C3, amended: for any sort routine satisfying the `std::sort` contract
(a permutation of its input), `build_BVH` makes a single primitive into a
leaf holding that primitive and its own box; two primitives into an internal
node over two singleton leaves (one internal node and two leaves exactly, as
for a two-triangle mesh) whose box is the union of the leaves' boxes; three
or more primitives are handed to the sort routine with the strict
centroid-coordinate comparator on the longest axis of the centroid bounds —
the relative order of tied keys, and hence the exact median split of a tied
input, is NOT fixed by the source's `std::sort` — split at the median index
`size / 2`, recursed into, and boxed by the union of the children's boxes;
and in every case the finished tree stores exactly the input primitives. -/
theorem c3_build_BVH (s : SortRoutine) (e e1 e2 e3 : Entity) (rest : List Entity)
    (hperm : ∀ cmp l, (s.sortFn cmp l).Perm l) :
    build_BVH s [e] = BVH_Node.leaf e.Get3DAABB e ∧
    build_BVH s [e1, e2] =
      BVH_Node.node (BVH_Node.leaf e1.Get3DAABB e1) (BVH_Node.leaf e2.Get3DAABB e2)
        (e1.Get3DAABB.Union_with_3D_AABB e2.Get3DAABB) ∧
    (build_BVH s [e1, e2]).internalCount = 1 ∧
    (build_BVH s [e1, e2]).leafCount = 2 ∧
    build_BVH s (e1 :: e2 :: e3 :: rest) =
      BVH_Node.node
        (build_BVH s (bvh_left_half s (e1 :: e2 :: e3 :: rest)))
        (build_BVH s (bvh_right_half s (e1 :: e2 :: e3 :: rest)))
        ((build_BVH s (bvh_left_half s (e1 :: e2 :: e3 :: rest))).bounding_volume.Union_with_3D_AABB
          (build_BVH s (bvh_right_half s (e1 :: e2 :: e3 :: rest))).bounding_volume) ∧
    (∀ es : List Entity, es ≠ [] → (build_BVH s es).entities.Perm es) := by
  refine ⟨?_, ?_, ?_, ?_, build_BVH_cons3 s e1 e2 e3 rest, ?_⟩
  · simp [build_BVH]
  · simp [build_BVH, BVH_Node.bounding_volume]
  · simp [build_BVH, BVH_Node.internalCount]
  · simp [build_BVH, BVH_Node.leafCount]
  · intro es hne
    exact build_BVH_entities_perm s hperm es.length es le_rfl hne

/-- C3, counterexample: three primitives whose centroids coincide, so every
centroid key on the chosen axis ties.  The identity and the reversal sort
routines are both valid outcomes of the source's `std::sort` at this input
(each returns a permutation sorted by the key), yet they yield BVHs storing
the primitives in different orders — so the claimed stable sort, and the
specific median split it induces on tied keys, is not guaranteed by the
code. -/
theorem c3_stable_sort_counterexample :
    centroid_key ((centroid_bounds [cTieEntity 1, cTieEntity 2, cTieEntity 3]).longest_axis)
        (cTieEntity 1) =
      centroid_key ((centroid_bounds [cTieEntity 1, cTieEntity 2, cTieEntity 3]).longest_axis)
        (cTieEntity 2) ∧
    centroid_key ((centroid_bounds [cTieEntity 1, cTieEntity 2, cTieEntity 3]).longest_axis)
        (cTieEntity 2) =
      centroid_key ((centroid_bounds [cTieEntity 1, cTieEntity 2, cTieEntity 3]).longest_axis)
        (cTieEntity 3) ∧
    bvh_sorted idSortRoutine [cTieEntity 1, cTieEntity 2, cTieEntity 3] =
      [cTieEntity 1, cTieEntity 2, cTieEntity 3] ∧
    bvh_sorted revSortRoutine [cTieEntity 1, cTieEntity 2, cTieEntity 3] =
      [cTieEntity 3, cTieEntity 2, cTieEntity 1] ∧
    (bvh_sorted idSortRoutine [cTieEntity 1, cTieEntity 2, cTieEntity 3]).Perm
      [cTieEntity 1, cTieEntity 2, cTieEntity 3] ∧
    (bvh_sorted revSortRoutine [cTieEntity 1, cTieEntity 2, cTieEntity 3]).Perm
      [cTieEntity 1, cTieEntity 2, cTieEntity 3] ∧
    List.Sorted (fun a b =>
      centroid_key ((centroid_bounds [cTieEntity 1, cTieEntity 2, cTieEntity 3]).longest_axis) a ≤
      centroid_key ((centroid_bounds [cTieEntity 1, cTieEntity 2, cTieEntity 3]).longest_axis) b)
      (bvh_sorted idSortRoutine [cTieEntity 1, cTieEntity 2, cTieEntity 3]) ∧
    List.Sorted (fun a b =>
      centroid_key ((centroid_bounds [cTieEntity 1, cTieEntity 2, cTieEntity 3]).longest_axis) a ≤
      centroid_key ((centroid_bounds [cTieEntity 1, cTieEntity 2, cTieEntity 3]).longest_axis) b)
      (bvh_sorted revSortRoutine [cTieEntity 1, cTieEntity 2, cTieEntity 3]) ∧
    (build_BVH idSortRoutine [cTieEntity 1, cTieEntity 2, cTieEntity 3]).entities.map
      (fun en => en.Sampling.2) = [1, 2, 3] ∧
    (build_BVH revSortRoutine [cTieEntity 1, cTieEntity 2, cTieEntity 3]).entities.map
      (fun en => en.Sampling.2) = [3, 2, 1] := by
  have hkey : ∀ (ax : Axis) (q : ℚ), centroid_key ax (cTieEntity q) = 0 := by
    intro ax q
    cases ax <;>
      norm_num [centroid_key, cTieEntity, entity_centroid, AABB_3D.center_vector,
        AABB_3D.of_point]
  have hLid : bvh_left_half idSortRoutine [cTieEntity 1, cTieEntity 2, cTieEntity 3] =
      [cTieEntity 1] := by
    simp [bvh_left_half, bvh_sorted, idSortRoutine]
  have hRid : bvh_right_half idSortRoutine [cTieEntity 1, cTieEntity 2, cTieEntity 3] =
      [cTieEntity 2, cTieEntity 3] := by
    simp [bvh_right_half, bvh_sorted, idSortRoutine]
  have hLrev : bvh_left_half revSortRoutine [cTieEntity 1, cTieEntity 2, cTieEntity 3] =
      [cTieEntity 3] := by
    simp [bvh_left_half, bvh_sorted, revSortRoutine]
  have hRrev : bvh_right_half revSortRoutine [cTieEntity 1, cTieEntity 2, cTieEntity 3] =
      [cTieEntity 2, cTieEntity 1] := by
    simp [bvh_right_half, bvh_sorted, revSortRoutine]
  refine ⟨by rw [hkey, hkey], by rw [hkey, hkey], rfl, rfl, List.Perm.refl _,
    List.reverse_perm _, ?_, ?_, ?_, ?_⟩
  · simp [List.sorted_cons, bvh_sorted, idSortRoutine, hkey]
  · simp [List.sorted_cons, bvh_sorted, revSortRoutine, hkey]
  · rw [build_BVH_cons3, hLid, hRid]
    simp [build_BVH, BVH_Node.entities, cTieEntity]
  · rw [build_BVH_cons3, hLrev, hRrev]
    simp [build_BVH, BVH_Node.entities, cTieEntity]

/-- C3, witness instance: on a concrete permutation-returning sort routine
and concrete primitives, the two-primitive tree has exactly one internal
node and two leaves, and a three-primitive tree stores exactly the input
primitives. -/
theorem c3_build_BVH_witness :
    (build_BVH idSortRoutine [cTieEntity 1, cTieEntity 2]).internalCount = 1 ∧
    (build_BVH idSortRoutine [cTieEntity 1, cTieEntity 2]).leafCount = 2 ∧
    (build_BVH idSortRoutine [cTieEntity 1, cTieEntity 2, cTieEntity 3]).entities.Perm
      [cTieEntity 1, cTieEntity 2, cTieEntity 3] :=
  ⟨(c3_build_BVH idSortRoutine (cTieEntity 1) (cTieEntity 1) (cTieEntity 2) (cTieEntity 3) []
      (fun _ _ => List.Perm.refl _)).2.2.1,
   (c3_build_BVH idSortRoutine (cTieEntity 1) (cTieEntity 1) (cTieEntity 2) (cTieEntity 3) []
      (fun _ _ => List.Perm.refl _)).2.2.2.1,
   (c3_build_BVH idSortRoutine (cTieEntity 1) (cTieEntity 1) (cTieEntity 2) (cTieEntity 3) []
      (fun _ _ => List.Perm.refl _)).2.2.2.2.2
     [cTieEntity 1, cTieEntity 2, cTieEntity 3] (by simp)⟩

/-- The slab test unfolded to the swap-form latest entry and earliest exit. -/
theorem intersects_with_ray_eq (b : AABB_3D ℚ) (ray : Ray) (recip : Vec3Q) (neg : Vec3 Bool) :
    b.intersects_with_ray ray recip neg =
      (decide (0 ≤ ray_t_out b ray recip neg) &&
       decide (ray_t_in b ray recip neg ≤ ray_t_out b ray recip neg)) := by
  simp only [AABB_3D.intersects_with_ray, ray_t_in, ray_t_out, swap_in, swap_out,
    apply_ite (Prod.fst (α := ℚ) (β := ℚ)), apply_ite (Prod.snd (α := ℚ) (β := ℚ)),
    ge_iff_le]

/-- Swap-form entries only decrease when the box grows, whenever the
reciprocal sign agrees with the swap flag. -/
theorem swap_in_mono (mnI mxI mnO mxO o r : ℚ) (neg : Bool)
    (hsO : neg = true → r ≤ 0) (hsP : neg = false → 0 ≤ r)
    (h1 : mnO ≤ mnI) (h2 : mxI ≤ mxO) :
    swap_in mnO mxO o r neg ≤ swap_in mnI mxI o r neg := by
  cases neg
  · simp only [swap_in, if_neg Bool.false_ne_true]
    exact mul_le_mul_of_nonneg_right (by linarith) (hsP rfl)
  · simp only [swap_in, if_pos rfl]
    exact mul_le_mul_of_nonpos_right (by linarith) (hsO rfl)

/-- Swap-form exits only increase when the box grows, whenever the
reciprocal sign agrees with the swap flag. -/
theorem swap_out_mono (mnI mxI mnO mxO o r : ℚ) (neg : Bool)
    (hsO : neg = true → r ≤ 0) (hsP : neg = false → 0 ≤ r)
    (h1 : mnO ≤ mnI) (h2 : mxI ≤ mxO) :
    swap_out mnI mxI o r neg ≤ swap_out mnO mxO o r neg := by
  cases neg
  · simp only [swap_out, if_neg Bool.false_ne_true]
    exact mul_le_mul_of_nonneg_right (by linarith) (hsP rfl)
  · simp only [swap_out, if_pos rfl]
    exact mul_le_mul_of_nonpos_right (by linarith) (hsO rfl)

/-- A ray that hits a box also hits every enclosing box (for a consistent
cached reciprocal), so BVH pruning never discards a subtree whose leaf boxes
the ray could hit. -/
theorem intersects_mono (ray : Ray) (hray : ray_ok ray) (inner outer : AABB_3D ℚ)
    (hsub : box_subset inner outer = true)
    (hhit : inner.intersects_with_ray ray ray.direction_reciprocal (ray_negative_flags ray) = true) :
    outer.intersects_with_ray ray ray.direction_reciprocal (ray_negative_flags ray) = true := by
  obtain ⟨hdx, hdy, hdz, hrec⟩ := hray
  simp only [box_subset, Bool.and_eq_true, decide_eq_true_eq, Vec3.le] at hsub
  obtain ⟨⟨hm1, hm2, hm3⟩, hx1, hx2, hx3⟩ := hsub
  rw [intersects_with_ray_eq] at hhit ⊢
  simp only [Bool.and_eq_true, decide_eq_true_eq] at hhit ⊢
  obtain ⟨hout, hio⟩ := hhit
  have hsx : ∀ c : ℚ, c ≠ 0 →
      ((decide (c < 0)) = true → (1 / c) ≤ 0) ∧ ((decide (c < 0)) = false → 0 ≤ 1 / c) := by
    intro c hc
    constructor
    · intro h
      exact le_of_lt (one_div_neg.mpr (of_decide_eq_true h))
    · intro h
      have : ¬(c < 0) := of_decide_eq_false h
      exact le_of_lt (one_div_pos.mpr (lt_of_le_of_ne (le_of_not_lt this) (Ne.symm hc)))
  have hin_mono : ray_t_in outer ray ray.direction_reciprocal (ray_negative_flags ray) ≤
      ray_t_in inner ray ray.direction_reciprocal (ray_negative_flags ray) := by
    rw [hrec]
    refine max_le_max ?_ (max_le_max ?_ ?_) <;>
      [exact swap_in_mono _ _ _ _ _ _ _ (hsx ray.m_direction.x hdx).1 (hsx ray.m_direction.x hdx).2 hm1 hx1;
       exact swap_in_mono _ _ _ _ _ _ _ (hsx ray.m_direction.y hdy).1 (hsx ray.m_direction.y hdy).2 hm2 hx2;
       exact swap_in_mono _ _ _ _ _ _ _ (hsx ray.m_direction.z hdz).1 (hsx ray.m_direction.z hdz).2 hm3 hx3]
  have hout_mono : ray_t_out inner ray ray.direction_reciprocal (ray_negative_flags ray) ≤
      ray_t_out outer ray ray.direction_reciprocal (ray_negative_flags ray) := by
    rw [hrec]
    refine min_le_min ?_ (min_le_min ?_ ?_) <;>
      [exact swap_out_mono _ _ _ _ _ _ _ (hsx ray.m_direction.x hdx).1 (hsx ray.m_direction.x hdx).2 hm1 hx1;
       exact swap_out_mono _ _ _ _ _ _ _ (hsx ray.m_direction.y hdy).1 (hsx ray.m_direction.y hdy).2 hm2 hx2;
       exact swap_out_mono _ _ _ _ _ _ _ (hsx ray.m_direction.z hdz).1 (hsx ray.m_direction.z hdz).2 hm3 hx3]
  exact ⟨le_trans hout hout_mono, le_trans hin_mono (le_trans hio hout_mono)⟩

/-- Box containment is reflexive. -/
theorem box_subset_refl (b : AABB_3D ℚ) : box_subset b b = true := by
  simp [box_subset, Vec3.le]

/-- Box containment is transitive. -/
theorem box_subset_trans (a b c : AABB_3D ℚ)
    (h1 : box_subset a b = true) (h2 : box_subset b c = true) : box_subset a c = true := by
  simp only [box_subset, Bool.and_eq_true, decide_eq_true_eq, Vec3.le] at h1 h2 ⊢
  obtain ⟨⟨p1, p2, p3⟩, q1, q2, q3⟩ := h1
  obtain ⟨⟨r1, r2, r3⟩, s1, s2, s3⟩ := h2
  exact ⟨⟨le_trans r1 p1, le_trans r2 p2, le_trans r3 p3⟩,
    le_trans q1 s1, le_trans q2 s2, le_trans q3 s3⟩

/-- In a well-formed BVH every stored primitive's box is contained in the
subtree root's box. -/
theorem wf_entities_subset (t : BVH_Node) (hwf : BVH_wf t = true) :
    ∀ e ∈ t.entities, box_subset e.Get3DAABB t.bounding_volume = true := by
  induction t with
  | leaf bv en =>
    intro e he
    simp only [BVH_Node.entities, List.mem_singleton] at he
    subst he
    have : bv = e.Get3DAABB := by simpa [BVH_wf] using hwf
    simpa [BVH_Node.bounding_volume, this] using box_subset_refl e.Get3DAABB
  | node l r bv ihl ihr =>
    intro e he
    simp only [BVH_wf, Bool.and_eq_true] at hwf
    obtain ⟨⟨⟨hwl, hwr⟩, hsl⟩, hsr⟩ := hwf
    simp only [BVH_Node.entities, List.mem_append] at he
    rcases he with he | he
    · exact box_subset_trans _ _ _ (ihl hwl e he) hsl
    · exact box_subset_trans _ _ _ (ihr hwr e he) hsr

/-- The smaller-`t` choice between records is associative. -/
theorem combine_records_assoc (a b c : IntersectionRecord) :
    combine_records (combine_records a b) c = combine_records a (combine_records b c) := by
  unfold combine_records
  by_cases hab : a.t < b.t
  · by_cases hbc : b.t < c.t
    · simp [hab, hbc, lt_trans hab hbc]
    · simp [hab, hbc]
  · by_cases hbc : b.t < c.t
    · simp [hab, hbc]
    · have hac : ¬(a.t < c.t) := fun h => hab (lt_of_lt_of_le h (le_of_not_lt hbc))
      simp [hab, hbc, hac]

/-- Folding the per-primitive choice over any seed factors through
`linear_scan` (the default record, whose `t` is the top sentinel, is a right
identity for the choice). -/
theorem linear_scan_foldr (ray : Ray) (es : List Entity) (x : IntersectionRecord) :
    es.foldr (fun e acc => combine_records (e.GetIntersectionRecord ray) acc) x =
      combine_records (linear_scan ray es) x := by
  induction es with
  | nil =>
    simp [linear_scan, combine_records, IntersectionRecord.mkDefault, not_top_lt]
  | cons e es ih =>
    simp only [List.foldr_cons, ih, linear_scan, combine_records_assoc]

/-- Linear scan over a concatenation is the smaller-`t` choice of the two
scans. -/
theorem linear_scan_append (ray : Ray) (l r : List Entity) :
    linear_scan ray (l ++ r) = combine_records (linear_scan ray l) (linear_scan ray r) := by
  unfold linear_scan
  rw [List.foldr_append]
  exact linear_scan_foldr ray l (linear_scan ray r)

/-- A scan over primitives that all miss returns the default record. -/
theorem linear_scan_all_default (ray : Ray) (es : List Entity)
    (h : ∀ e ∈ es, e.GetIntersectionRecord ray = IntersectionRecord.mkDefault) :
    linear_scan ray es = IntersectionRecord.mkDefault := by
  induction es with
  | nil => rfl
  | cons e es ih =>
    simp only [linear_scan, List.foldr_cons]
    have h1 : e.GetIntersectionRecord ray = IntersectionRecord.mkDefault :=
      h e (List.mem_cons_self e es)
    have h2 : linear_scan ray es = IntersectionRecord.mkDefault :=
      ih (fun e' he' => h e' (List.mem_cons_of_mem e he'))
    rw [h1]
    show combine_records IntersectionRecord.mkDefault
      (es.foldr (fun e acc => combine_records (e.GetIntersectionRecord ray) acc)
        IntersectionRecord.mkDefault) = IntersectionRecord.mkDefault
    rw [show es.foldr (fun e acc => combine_records (e.GetIntersectionRecord ray) acc)
        IntersectionRecord.mkDefault = linear_scan ray es from rfl, h2]
    simp [combine_records]

/-- BVH traversal from a node computes exactly the brute-force linear scan
over the primitives stored below that node. -/
theorem traverse_eq_linear_scan (ray : Ray) (t : BVH_Node) (hray : ray_ok ray)
    (hwf : BVH_wf t = true)
    (hent : ∀ e ∈ t.entities, entity_ok ray e) :
    traverse_BVH_from_node ray t = linear_scan ray t.entities := by
  induction t with
  | leaf bv en =>
    have hen : entity_ok ray en := hent en (by simp [BVH_Node.entities])
    have hbv : bv = en.Get3DAABB := by simpa [BVH_wf] using hwf
    subst hbv
    simp only [traverse_BVH_from_node, BVH_Node.entities, linear_scan, List.foldr_cons,
      List.foldr_nil]
    cases hhit : en.Get3DAABB.intersects_with_ray ray ray.direction_reciprocal
        (ray_negative_flags ray) with
    | false =>
      have hdef : en.GetIntersectionRecord ray = IntersectionRecord.mkDefault :=
        hen.2 (by simp [hhit])
      simp [hhit, hdef, combine_records]
    | true =>
      simp only [hhit, Bool.not_true, Bool.false_eq_true, if_false]
      by_cases ht : (en.GetIntersectionRecord ray).t = ⊤
      · have hdef := hen.1 ht
        simp [hdef, combine_records]
      · have hlt : (en.GetIntersectionRecord ray).t < ⊤ := lt_top_iff_ne_top.mpr ht
        simp [combine_records, IntersectionRecord.mkDefault, hlt]
  | node l r bv ihl ihr =>
    have hwf' := hwf
    simp only [BVH_wf, Bool.and_eq_true] at hwf'
    obtain ⟨⟨⟨hwl, hwr⟩, hsl⟩, hsr⟩ := hwf'
    have hel : ∀ e ∈ l.entities, entity_ok ray e := fun e he =>
      hent e (by simp [BVH_Node.entities, List.mem_append, he])
    have her : ∀ e ∈ r.entities, entity_ok ray e := fun e he =>
      hent e (by simp [BVH_Node.entities, List.mem_append, he])
    cases hhit : bv.intersects_with_ray ray ray.direction_reciprocal (ray_negative_flags ray) with
    | true =>
      simp only [traverse_BVH_from_node, hhit, Bool.not_true, Bool.false_eq_true, if_false,
        BVH_Node.entities]
      rw [ihl hwl hel, ihr hwr her, linear_scan_append]
      rfl
    | false =>
      simp only [traverse_BVH_from_node, hhit, Bool.not_false, if_true, BVH_Node.entities]
      have hall : ∀ e ∈ (BVH_Node.node l r bv).entities,
          e.GetIntersectionRecord ray = IntersectionRecord.mkDefault := by
        intro e he
        have hsub : box_subset e.Get3DAABB bv = true := by
          have := wf_entities_subset (BVH_Node.node l r bv) hwf e he
          simpa [BVH_Node.bounding_volume] using this
        have hmiss : ¬(e.Get3DAABB.intersects_with_ray ray ray.direction_reciprocal
            (ray_negative_flags ray) = true) := by
          intro habs
          have := intersects_mono ray hray e.Get3DAABB bv hsub habs
          rw [hhit] at this
          exact Bool.false_ne_true this
        exact (hent e he).2 hmiss
      rw [linear_scan_all_default ray _ (fun e he => hall e (by simpa [BVH_Node.entities] using he))]

/-- C1: for a well-formed BVH over primitives whose own intersection
routines respect their bounding boxes and report misses with the default
record, traversal from the subtree root returns exactly the record of a
brute-force linear scan over all primitives (same hit primitive, same `t`,
exactly); the default record has `has_intersection = false` and carries the
top `t` sentinel, so it never wins the smaller-`t` comparison; and at an
internal node whose box the ray hits, both children are visited and the
child record with smaller `t` is returned. -/
theorem c1_bvh_traversal_equals_linear_scan (t : BVH_Node) (ray : Ray)
    (hray : ray_ok ray) (hwf : BVH_wf t = true)
    (hent : ∀ e ∈ t.entities, entity_ok ray e) :
    traverse_BVH_from_node ray t = linear_scan ray t.entities ∧
    IntersectionRecord.mkDefault.has_intersection = false ∧
    IntersectionRecord.mkDefault.t = ⊤ ∧
    (∀ rec : IntersectionRecord, ¬(IntersectionRecord.mkDefault.t < rec.t)) ∧
    (∀ l r bv,
      bv.intersects_with_ray ray ray.direction_reciprocal (ray_negative_flags ray) = true →
      traverse_BVH_from_node ray (BVH_Node.node l r bv) =
        combine_records (traverse_BVH_from_node ray l) (traverse_BVH_from_node ray r)) := by
  refine ⟨traverse_eq_linear_scan ray t hray hwf hent, rfl, rfl, ?_, ?_⟩
  · intro rec
    exact not_top_lt
  · intro l r bv h
    simp [traverse_BVH_from_node, h, combine_records]

/-- C1, witness instance: on a concrete two-leaf BVH over two triangles and
a concrete diagonal ray, traversal agrees with the linear scan. -/
theorem c1_bvh_traversal_equals_linear_scan_witness :
    traverse_BVH_from_node witnessRay witnessTree =
      linear_scan witnessRay witnessTree.entities := by
  have hrec1 : witnessTriangleA.GetIntersectionRecord witnessRay =
      { has_intersection := true, t := (1 : ℚ), location := ⟨1, 1, 1⟩,
        surface_normal := ⟨1, 1, 1⟩, hitted_entity := some 1,
        hitted_entity_material := some nullMaterial, primitive_id := 1, emission := 0 } := by
    norm_num [witnessTriangleA, triangleEntity, TrianglePrimitive_GetIntersectionRecord,
      RayTriangleIntersection, dotV, crossV, witnessRay, mkRay, Ray.at, Vec3.ext_iff_Q]
  have hrec2 : witnessTriangleB.GetIntersectionRecord witnessRay =
      { has_intersection := true, t := (2 : ℚ), location := ⟨2, 2, 2⟩,
        surface_normal := ⟨1, 1, 1⟩, hitted_entity := some 2,
        hitted_entity_material := some nullMaterial, primitive_id := 2, emission := 0 } := by
    norm_num [witnessTriangleB, triangleEntity, TrianglePrimitive_GetIntersectionRecord,
      RayTriangleIntersection, dotV, crossV, witnessRay, mkRay, Ray.at, Vec3.ext_iff_Q]
  have hboxA : witnessTriangleA.Get3DAABB.intersects_with_ray witnessRay
      witnessRay.direction_reciprocal (ray_negative_flags witnessRay) = true := by
    norm_num [witnessTriangleA, triangleEntity, AABB_3D.of_two_points, AABB_3D.Union_with_point,
      Vec3.minV, Vec3.maxV, AABB_3D.intersects_with_ray, witnessRay, mkRay, ray_negative_flags]
  have hboxB : witnessTriangleB.Get3DAABB.intersects_with_ray witnessRay
      witnessRay.direction_reciprocal (ray_negative_flags witnessRay) = true := by
    norm_num [witnessTriangleB, triangleEntity, AABB_3D.of_two_points, AABB_3D.Union_with_point,
      Vec3.minV, Vec3.maxV, AABB_3D.intersects_with_ray, witnessRay, mkRay, ray_negative_flags]
  refine (c1_bvh_traversal_equals_linear_scan witnessTree witnessRay ?_ ?_ ?_).1
  · norm_num [ray_ok, witnessRay, mkRay]
  · norm_num [BVH_wf, witnessTree, witnessTriangleA, witnessTriangleB, triangleEntity,
      box_subset, Vec3.le, AABB_3D.of_two_points, AABB_3D.Union_with_point,
      AABB_3D.Union_with_3D_AABB, Vec3.minV, Vec3.maxV, BVH_Node.bounding_volume]
  · intro e he
    simp only [witnessTree, BVH_Node.entities, List.mem_append, List.mem_singleton] at he
    rcases he with rfl | rfl
    · refine ⟨?_, ?_⟩
      · intro ht
        rw [hrec1] at ht
        exact absurd ht (by simp)
      · intro hbox
        exact absurd hboxA hbox
    · refine ⟨?_, ?_⟩
      · intro ht
        rw [hrec2] at ht
        exact absurd ht (by simp)
      · intro hbox
        exact absurd hboxB hbox

/-- C5: an emissive surface returns its emission with no further bounces;
for a non-emissive surface `shading` is the sum of the direct term and the
indirect term; the Russian-roulette survival probability is the fixed
constant `0.8` and the same threshold is used at every recursion level; the
indirect term vanishes whenever the roulette fails, the bounce ray misses,
or the bounce ray hits an emissive surface; and a surviving indirect
contribution is the recursive radiance times the BRDF times the cosine,
divided by `PDF(w_in) * p_RR`, with `PDF` the constant `1 / (2π)`. -/
theorem c5_stochastic_path_structure (env : RendererState) (fuel : ℕ)
    (record : IntersectionRecord) (W_out : Vec3Q) (m : WhittedMaterial)
    (hm : record.hitted_entity_material = some m) :
    RR_survival_probability = 0.8 ∧
    (m.IsEmitting = true → shading env (fuel + 1) record W_out = m.GetEmission) ∧
    (m.IsEmitting = false → shading env (fuel + 1) record W_out =
      radiance_direct env m W_out
        (if dotV record.surface_normal W_out < 0 then -record.surface_normal
         else record.surface_normal)
        (record.location + INTERSECTION_CORRECTION •
          (if dotV record.surface_normal W_out < 0 then -record.surface_normal
           else record.surface_normal)) +
      radiance_indirect env (shading env fuel) (fuel + 1) m W_out
        (if dotV record.surface_normal W_out < 0 then -record.surface_normal
         else record.surface_normal)
        (record.location + INTERSECTION_CORRECTION •
          (if dotV record.surface_normal W_out < 0 then -record.surface_normal
           else record.surface_normal))) ∧
    (∀ (lvl : ℕ) (k : IntersectionRecord → Vec3Q → Vec3Q) (n p : Vec3Q),
      ¬(env.rands lvl < RR_survival_probability) →
      radiance_indirect env k lvl m W_out n p = 0) ∧
    (∀ (lvl : ℕ) (k : IntersectionRecord → Vec3Q → Vec3Q) (n p : Vec3Q),
      (env.trace (mkRay p (env.normalizeV (env.dirSample lvl)))).has_intersection = false →
      radiance_indirect env k lvl m W_out n p = 0) ∧
    (∀ (lvl : ℕ) (k : IntersectionRecord → Vec3Q → Vec3Q) (n p : Vec3Q),
      ((env.trace (mkRay p (env.normalizeV (env.dirSample lvl)))).hitted_entity_material.getD
        nullMaterial).IsEmitting = true →
      radiance_indirect env k lvl m W_out n p = 0) ∧
    (∀ (lvl : ℕ) (k : IntersectionRecord → Vec3Q → Vec3Q) (n p : Vec3Q),
      env.rands lvl < RR_survival_probability →
      (env.trace (mkRay p (env.normalizeV (env.dirSample lvl)))).has_intersection = true →
      ((env.trace (mkRay p (env.normalizeV (env.dirSample lvl)))).hitted_entity_material.getD
        nullMaterial).IsEmitting = false →
      (radiance_indirect env k lvl m W_out n p =
        (dotV (env.normalizeV (env.dirSample lvl)) n /
          (m.PDF_at_the_sample W_out (env.normalizeV (env.dirSample lvl)) n *
            RR_survival_probability)) •
          (k (env.trace (mkRay p (env.normalizeV (env.dirSample lvl))))
              (-(env.normalizeV (env.dirSample lvl))) *
            m.BRDF W_out (env.normalizeV (env.dirSample lvl)) n) ∧
       m.PDF_at_the_sample W_out (env.normalizeV (env.dirSample lvl)) n = 1 / (2 * PI_Q))) := by
  refine ⟨rfl, ?_, ?_, ?_, ?_, ?_, ?_⟩
  · intro hem
    simp [shading, hm, hem]
  · intro hem
    simp only [shading, hm, Option.getD_some, WhittedMaterial.IsEmitting] at *
    rw [if_neg (by rw [hem]; exact Bool.false_ne_true)]
  · intro lvl k n p hr
    simp [radiance_indirect, hr]
  · intro lvl k n p hmiss
    by_cases hr : env.rands lvl < RR_survival_probability <;>
      simp [radiance_indirect, hr, hmiss]
  · intro lvl k n p hem
    by_cases hr : env.rands lvl < RR_survival_probability <;>
      simp [radiance_indirect, hr, hem]
  · intro lvl k n p hr hhit hem
    refine ⟨?_, rfl⟩
    simp only [radiance_indirect, if_pos hr, hhit, hem, Bool.not_false, Bool.and_self, if_pos]
    rw [div_div]

/-- C5, witness instance: on a concrete state, an emissive record returns
its emission; a failed roulette draw zeroes the indirect term; the survival
probability is `0.8`. -/
theorem c5_stochastic_path_structure_witness :
    shading c5Env 1 c5EmissiveRecord ⟨0, 0, 1⟩ = (⟨1, 1, 1⟩ : Vec3Q) ∧
    radiance_indirect c5Env (shading c5Env 0) 1 c4Mat ⟨0, 0, 1⟩ ⟨0, 0, 1⟩ 0 = 0 ∧
    RR_survival_probability = 0.8 := by
  refine ⟨?_, ?_, (c5_stochastic_path_structure c5Env 0 c5EmissiveRecord ⟨0, 0, 1⟩
    ⟨true, ⟨1, 1, 1⟩, 0⟩ rfl).1⟩
  · exact (c5_stochastic_path_structure c5Env 0 c5EmissiveRecord ⟨0, 0, 1⟩
      ⟨true, ⟨1, 1, 1⟩, 0⟩ rfl).2.1 rfl
  · exact (c5_stochastic_path_structure c5Env 0 c4Record ⟨0, 0, 1⟩ c4Mat rfl).2.2.2.1 1
      (shading c5Env 0) ⟨0, 0, 1⟩ 0 (by norm_num [c5Env, RR_survival_probability])

/-- The dot product is symmetric. -/
theorem dotV_comm (a b : Vec3Q) : dotV a b = dotV b a := by
  unfold dotV; ring

/-- Negating the right argument negates the dot product. -/
theorem dotV_neg_right (a b : Vec3Q) : dotV a (-b) = -dotV a b := by
  simp only [dotV, Vec3.neg_x, Vec3.neg_y, Vec3.neg_z]; ring

/-- Componentwise product with the zero vector. -/
theorem Vec3.mul_zero_Q (v : Vec3Q) : v * 0 = 0 := by
  rw [Vec3.ext_iff_Q]; simp

/-- Scalar multiple of the zero vector. -/
theorem Vec3.smul_zero_Q (q : ℚ) : q • (0 : Vec3Q) = 0 := by
  rw [Vec3.ext_iff_Q]; simp

/-- C4, amended: the integrator samples the first (sole) emissive entity in
the scene list, casts a shadow ray toward the sample from the offset shading
point, and adds the direct term exactly when the light-sample distance is
below the occluder `t` plus the `0.01` intersection-correction tolerance
(so an occluder strictly before the sample but within `0.01` of it does not
suppress the term); an unoccluded direct term equals
`L_e * BRDF(w_out, w_in, n) * |cos_surface| * |cos_light| / distance^2 /
pdf_area` with `pdf_area` the PDF returned by the sampling routine; and a
non-emissive surface shades as this direct term plus the indirect term. -/
theorem c4_direct_lighting_amended (env : RendererState) (fuel : ℕ)
    (record : IntersectionRecord) (W_out : Vec3Q) (m : WhittedMaterial)
    (hm : record.hitted_entity_material = some m) (hem : m.IsEmitting = false) :
    (∀ (es : List Entity) (e : Entity), es.find? (fun en => en.IsEmissive) = some e →
      SamplingAreaLight es = e.Sampling) ∧
    (∀ n p : Vec3Q,
      ¬(((env.len (env.arealight_sample.location - p) : ℚ) : WithTop ℚ) <
          (env.trace (mkRay p (env.normalizeV (env.arealight_sample.location - p)))).t +
            ((0.01 : ℚ) : WithTop ℚ)) →
      radiance_direct env m W_out n p = 0) ∧
    (∀ n p : Vec3Q,
      (((env.len (env.arealight_sample.location - p) : ℚ) : WithTop ℚ) <
          (env.trace (mkRay p (env.normalizeV (env.arealight_sample.location - p)))).t +
            ((0.01 : ℚ) : WithTop ℚ)) →
      radiance_direct env m W_out n p =
        ((|dotV (env.normalizeV (env.arealight_sample.location - p)) n| *
            |dotV (-(env.normalizeV (env.arealight_sample.location - p)))
               env.arealight_sample.surface_normal| /
            dotV (env.arealight_sample.location - p) (env.arealight_sample.location - p)) /
          env.arealight_PDF) •
          (env.arealight_sample.emission *
            m.BRDF W_out (env.normalizeV (env.arealight_sample.location - p)) n)) ∧
    (shading env (fuel + 1) record W_out =
      radiance_direct env m W_out
        (if dotV record.surface_normal W_out < 0 then -record.surface_normal
         else record.surface_normal)
        (record.location + INTERSECTION_CORRECTION •
          (if dotV record.surface_normal W_out < 0 then -record.surface_normal
           else record.surface_normal)) +
      radiance_indirect env (shading env fuel) (fuel + 1) m W_out
        (if dotV record.surface_normal W_out < 0 then -record.surface_normal
         else record.surface_normal)
        (record.location + INTERSECTION_CORRECTION •
          (if dotV record.surface_normal W_out < 0 then -record.surface_normal
           else record.surface_normal))) := by
  refine ⟨?_, ?_, ?_, ?_⟩
  · intro es e hfind
    simp [SamplingAreaLight, hfind]
  · intro n p hvis
    simp only [radiance_direct]
    rw [if_neg hvis]
  · intro n p hvis
    simp only [radiance_direct]
    rw [if_pos hvis]
    by_cases hcl : dotV env.arealight_sample.surface_normal
        (-(env.normalizeV (env.arealight_sample.location - p))) < 0
    · rw [if_pos hcl]
      have hneg : dotV (-(env.normalizeV (env.arealight_sample.location - p)))
          env.arealight_sample.surface_normal < 0 := by
        rw [dotV_comm]; exact hcl
      rw [dotV_neg_right, abs_of_neg hneg]
      by_cases hcs : 0 ≤ dotV (env.normalizeV (env.arealight_sample.location - p)) n
      · rw [abs_of_nonneg hcs]
      · rw [abs_of_neg (not_le.mp hcs)]
        have hbrdf : m.BRDF W_out (env.normalizeV (env.arealight_sample.location - p)) n = 0 := by
          simp [WhittedMaterial.BRDF, ge_iff_le, hcs]
        rw [hbrdf, Vec3.mul_zero_Q, Vec3.smul_zero_Q, Vec3.smul_zero_Q]
    · rw [if_neg hcl]
      have hge : 0 ≤ dotV (-(env.normalizeV (env.arealight_sample.location - p)))
          env.arealight_sample.surface_normal := by
        rw [dotV_comm]; exact le_of_not_lt hcl
      rw [abs_of_nonneg hge]
      by_cases hcs : 0 ≤ dotV (env.normalizeV (env.arealight_sample.location - p)) n
      · rw [abs_of_nonneg hcs]
      · rw [abs_of_neg (not_le.mp hcs)]
        have hbrdf : m.BRDF W_out (env.normalizeV (env.arealight_sample.location - p)) n = 0 := by
          simp [WhittedMaterial.BRDF, ge_iff_le, hcs]
        rw [hbrdf, Vec3.mul_zero_Q, Vec3.smul_zero_Q, Vec3.smul_zero_Q]
  · simp only [shading, hm, Option.getD_some, WhittedMaterial.IsEmitting] at *
    rw [if_neg (by rw [hem]; exact Bool.false_ne_true)]

/-- C4, counterexample: in the state `c4Env` the traced occluder lies at
`t = 199/200`, strictly before the light sample at distance `1`, yet the
direct term is still added (it is non-zero), because the visibility test
tolerates occluders within `0.01` of the sample; so "adds the direct term
only if no occluder lies strictly before the light sample" is false. -/
theorem c4_shadow_tolerance_counterexample :
    (c4Env.trace (mkRay ⟨0, 0, 1/100000⟩ ⟨0, 0, 1⟩)).t <
      ((c4Env.len (c4Env.arealight_sample.location - ⟨0, 0, 1/100000⟩) : ℚ) : WithTop ℚ) ∧
    radiance_direct c4Env c4Mat ⟨0, 0, 1⟩ ⟨0, 0, 1⟩ ⟨0, 0, 1/100000⟩ ≠ 0 := by
  constructor
  · have hlen : c4Env.len (c4Env.arealight_sample.location - ⟨0, 0, 1/100000⟩) = 1 := by
      simp [c4Env]
    rw [hlen]
    show ((199/200 : ℚ) : WithTop ℚ) < ((1 : ℚ) : WithTop ℚ)
    rw [WithTop.coe_lt_coe]
    norm_num
  · have hd : c4Env.arealight_sample.location - (⟨0, 0, 1/100000⟩ : Vec3Q) = ⟨0, 0, 1⟩ := by
      rw [Vec3.ext_iff_Q]
      simp [c4Env]
    have hvis : ((c4Env.len (c4Env.arealight_sample.location - ⟨0, 0, 1/100000⟩) : ℚ) : WithTop ℚ) <
        (c4Env.trace (mkRay ⟨0, 0, 1/100000⟩
          (c4Env.normalizeV (c4Env.arealight_sample.location - ⟨0, 0, 1/100000⟩)))).t +
          ((0.01 : ℚ) : WithTop ℚ) := by
      rw [hd]
      show ((1 : ℚ) : WithTop ℚ) < ((199/200 : ℚ) : WithTop ℚ) + ((0.01 : ℚ) : WithTop ℚ)
      rw [← WithTop.coe_add, WithTop.coe_lt_coe]
      norm_num
    have := (c4_direct_lighting_amended c4Env 0 c4Record ⟨0, 0, 1⟩ c4Mat rfl rfl).2.2.1
      ⟨0, 0, 1⟩ ⟨0, 0, 1/100000⟩ hvis
    rw [this, hd]
    intro habs
    rw [Vec3.ext_iff_Q] at habs
    have hx := habs.1
    simp [c4Env, c4Mat, dotV, WhittedMaterial.BRDF, PI_Q] at hx
    norm_num at hx

/-- C4, witness instance: the sampler picks the first emissive entity of a
concrete scene list, and with a concrete occluder at `t = 1/2` (more than
`0.01` before the light sample at distance `1`) the direct term is zero. -/
theorem c4_direct_lighting_amended_witness :
    SamplingAreaLight [witnessTriangleA, c4EmissiveEntity] = c4EmissiveEntity.Sampling ∧
    radiance_direct c4BlockedEnv c4Mat ⟨0, 0, 1⟩ ⟨0, 0, 1⟩ ⟨0, 0, 1/100000⟩ = 0 := by
  constructor
  · exact (c4_direct_lighting_amended c4BlockedEnv 0 c4Record ⟨0, 0, 1⟩ c4Mat rfl rfl).1
      [witnessTriangleA, c4EmissiveEntity] c4EmissiveEntity rfl
  · have hd : c4BlockedEnv.arealight_sample.location - (⟨0, 0, 1/100000⟩ : Vec3Q) = ⟨0, 0, 1⟩ := by
      rw [Vec3.ext_iff_Q]
      simp [c4BlockedEnv]
    refine (c4_direct_lighting_amended c4BlockedEnv 0 c4Record ⟨0, 0, 1⟩ c4Mat rfl rfl).2.1
      ⟨0, 0, 1⟩ ⟨0, 0, 1/100000⟩ ?_
    rw [hd]
    show ¬(((1 : ℚ) : WithTop ℚ) < ((1/2 : ℚ) : WithTop ℚ) + ((0.01 : ℚ) : WithTop ℚ))
    rw [← WithTop.coe_add, WithTop.coe_lt_coe]
    norm_num

/-- One is a left identity for the vector scalar multiple. -/
theorem Vec3.one_smul_Q (v : Vec3Q) : (1 : ℚ) • v = v := by
  rw [Vec3.ext_iff_Q]; simp

/-- Zero is a left zero for the vector scalar multiple. -/
theorem Vec3.zero_smul_Q (v : Vec3Q) : (0 : ℚ) • v = v * 0 := by
  rw [Vec3.ext_iff_Q]; simp

/-- Zero is a left identity for vector addition. -/
theorem Vec3.zero_add_Q (v : Vec3Q) : (0 : Vec3Q) + v = v := by
  rw [Vec3.ext_iff_Q]; simp

/-- C8, amended: for a pixel with valid geometry the previous color is
fetched only when the reprojection through the previous frame's stored
matrices lands strictly inside the viewport and the stored primitive
identity there equals the current pixel's identity; whenever any of these
fails (or the geometry is invalid) the blend factor stays `1.0` and the
output is the pure current-frame color; on success the fetched color is
clamped componentwise to `mean ± tolerance * s` over the kernel window of
the current frame's colors, where `s` is the root mean squared difference
from the CENTER pixel's color (not the standard deviation about the mean),
and blended with the fixed current-frame weight; and with the filter enabled
and a previous frame accessible the whole pass applies exactly this
per-pixel function. -/
theorem c8_temporal_filter_amended (d : Denoiser) (prev cur g : G_Buffer) (x y : Int) :
    (cur.primitive_id x y = -1 → temporal_pixel d prev cur x y = cur.pixel_color x y) ∧
    (¬(0 < reprojected_pixel_x d prev cur x y ∧
        reprojected_pixel_x d prev cur x y < (d.frame_width : ℚ) ∧
        0 < reprojected_pixel_y d prev cur x y ∧
        reprojected_pixel_y d prev cur x y < (d.frame_height : ℚ)) →
      temporal_pixel d prev cur x y = cur.pixel_color x y) ∧
    (¬(cur.primitive_id x y =
        prev.primitive_id (truncQ (reprojected_pixel_x d prev cur x y))
          (truncQ (reprojected_pixel_y d prev cur x y))) →
      temporal_pixel d prev cur x y = cur.pixel_color x y) ∧
    (cur.primitive_id x y ≠ -1 →
      (0 < reprojected_pixel_x d prev cur x y ∧
        reprojected_pixel_x d prev cur x y < (d.frame_width : ℚ) ∧
        0 < reprojected_pixel_y d prev cur x y ∧
        reprojected_pixel_y d prev cur x y < (d.frame_height : ℚ)) →
      cur.primitive_id x y =
        prev.primitive_id (truncQ (reprojected_pixel_x d prev cur x y))
          (truncQ (reprojected_pixel_y d prev cur x y)) →
      temporal_pixel d prev cur x y =
        (1 - d.current_frame_weighting) •
          clampVec
            (prev.pixel_color (truncQ (reprojected_pixel_x d prev cur x y))
              (truncQ (reprojected_pixel_y d prev cur x y)))
            (kernel_mean cur (temporal_cells d x y) -
              d.tolerance • temporal_deviation d cur x y (temporal_cells d x y))
            (kernel_mean cur (temporal_cells d x y) +
              d.tolerance • temporal_deviation d cur x y (temporal_cells d x y)) +
          d.current_frame_weighting • cur.pixel_color x y) ∧
    (d.using_temporal_filtering = true → d.accessible_previous_frame = true →
      (TemporalFiltering d g).1 = fun a b => temporal_pixel d d.previous_frame_g_buffer g a b) := by
  refine ⟨?_, ?_, ?_, ?_, ?_⟩
  · intro hid
    simp only [temporal_pixel]
    rw [if_neg (fun hn => hn hid)]
    simp only [sub_self]
    rw [Vec3.zero_smul_Q, Vec3.mul_zero_Q, Vec3.zero_add_Q, Vec3.one_smul_Q]
  · intro hin
    by_cases hid : cur.primitive_id x y ≠ -1
    · simp only [temporal_pixel]
      rw [if_pos hid, if_neg hin]
      simp only [sub_self]
      rw [Vec3.zero_smul_Q, Vec3.mul_zero_Q, Vec3.zero_add_Q, Vec3.one_smul_Q]
    · simp only [temporal_pixel]
      rw [if_neg hid]
      simp only [sub_self]
      rw [Vec3.zero_smul_Q, Vec3.mul_zero_Q, Vec3.zero_add_Q, Vec3.one_smul_Q]
  · intro hmatch
    by_cases hid : cur.primitive_id x y ≠ -1
    · by_cases hin : (0 < reprojected_pixel_x d prev cur x y ∧
          reprojected_pixel_x d prev cur x y < (d.frame_width : ℚ) ∧
          0 < reprojected_pixel_y d prev cur x y ∧
          reprojected_pixel_y d prev cur x y < (d.frame_height : ℚ))
      · simp only [temporal_pixel]
        rw [if_pos hid, if_pos hin, if_neg hmatch]
        simp only [sub_self]
        rw [Vec3.zero_smul_Q, Vec3.mul_zero_Q, Vec3.zero_add_Q, Vec3.one_smul_Q]
      · simp only [temporal_pixel]
        rw [if_pos hid, if_neg hin]
        simp only [sub_self]
        rw [Vec3.zero_smul_Q, Vec3.mul_zero_Q, Vec3.zero_add_Q, Vec3.one_smul_Q]
    · simp only [temporal_pixel]
      rw [if_neg hid]
      simp only [sub_self]
      rw [Vec3.zero_smul_Q, Vec3.mul_zero_Q, Vec3.zero_add_Q, Vec3.one_smul_Q]
  · intro hid hin hmatch
    simp only [temporal_pixel]
    rw [if_pos hid, if_pos hin, if_pos hmatch]
  · intro h1 h2
    simp [TemporalFiltering, h1, h2]

/-- C8, counterexample: in the concrete temporal instance the blend weight
is `0`, so the output pixel is exactly the clamped history color `7/5`; yet
its squared distance from the kernel mean exceeds `tolerance^2` times the
kernel variance about the mean, so the fetched color was NOT clamped to
`[mean - k*stddev, mean + k*stddev]` as claimed (the code's window is built
from the root mean squared difference to the center pixel's color
instead). -/
theorem c8_variance_clamp_counterexample :
    temporal_pixel c8Denoiser c8PrevBuffer c8CurBuffer 1 1 = (⟨7/5, 7/5, 7/5⟩ : Vec3Q) ∧
    ((temporal_pixel c8Denoiser c8PrevBuffer c8CurBuffer 1 1).x -
        (kernel_mean c8CurBuffer (temporal_cells c8Denoiser 1 1)).x) ^ 2 >
      c8Denoiser.tolerance ^ 2 *
        (claim_local_variance c8CurBuffer (temporal_cells c8Denoiser 1 1)).x := by
  have hpx : reprojected_pixel_x c8Denoiser c8PrevBuffer c8CurBuffer 1 1 = 1 := by
    norm_num [reprojected_pixel_x, c8Denoiser, c8PrevBuffer, c8CurBuffer, Mat4.mulVec,
      Mat4.identity]
  have hpy : reprojected_pixel_y c8Denoiser c8PrevBuffer c8CurBuffer 1 1 = 1 := by
    norm_num [reprojected_pixel_y, c8Denoiser, c8PrevBuffer, c8CurBuffer, Mat4.mulVec,
      Mat4.identity]
  have htr : truncQ 1 = 1 := rfl
  have hcells : temporal_cells c8Denoiser 1 1 = [(0, 0), (0, 1), (1, 0), (1, 1)] := by
    decide
  have hmean : kernel_mean c8CurBuffer [(0, 0), (0, 1), (1, 0), (1, 1)] =
      (⟨1/2, 1/2, 1/2⟩ : Vec3Q) := by
    rw [Vec3.ext_iff_Q]
    norm_num [kernel_mean, c8CurBuffer, List.foldl_cons, List.foldl_nil]
  have hdev : temporal_deviation c8Denoiser c8CurBuffer 1 1 [(0, 0), (0, 1), (1, 0), (1, 1)] =
      (⟨1, 1, 1⟩ : Vec3Q) := by
    rw [Vec3.ext_iff_Q]
    norm_num [temporal_deviation, c8CurBuffer, c8Denoiser, List.foldl_cons, List.foldl_nil,
      ratSqrt, Rat.num_one, Rat.den_one, Int.toNat_one, Nat.sqrt_one]
  have hvar : claim_local_variance c8CurBuffer [(0, 0), (0, 1), (1, 0), (1, 1)] =
      (⟨3/4, 3/4, 3/4⟩ : Vec3Q) := by
    simp only [claim_local_variance, hmean]
    rw [Vec3.ext_iff_Q]
    norm_num [c8CurBuffer, List.foldl_cons, List.foldl_nil]
  have hout : temporal_pixel c8Denoiser c8PrevBuffer c8CurBuffer 1 1 =
      (⟨7/5, 7/5, 7/5⟩ : Vec3Q) := by
    have h := (c8_temporal_filter_amended c8Denoiser c8PrevBuffer c8CurBuffer c8CurBuffer 1 1).2.2.2.1
      (by norm_num [c8CurBuffer])
      (by rw [hpx, hpy]; norm_num [c8Denoiser])
      (by rw [hpx, hpy]; rfl)
    rw [h, hpx, hpy, htr, hcells, hmean, hdev]
    rw [Vec3.ext_iff_Q]
    norm_num [c8Denoiser, c8PrevBuffer, clampVec, Vec3.minV, Vec3.maxV]
  refine ⟨hout, ?_⟩
  rw [hout, hcells, hmean, hvar]
  norm_num [c8Denoiser]

/-- C8, witness instance: a pixel with no valid geometry passes the current
color through unchanged, and the concrete matched pixel blends the clamped
history color by the stored weights. -/
theorem c8_temporal_filter_amended_witness :
    temporal_pixel c8Denoiser c8PrevBuffer c8MissBuffer 1 1 = c8MissBuffer.pixel_color 1 1 ∧
    temporal_pixel c8Denoiser c8PrevBuffer c8CurBuffer 1 1 =
      (1 - c8Denoiser.current_frame_weighting) •
        clampVec
          (c8PrevBuffer.pixel_color
            (truncQ (reprojected_pixel_x c8Denoiser c8PrevBuffer c8CurBuffer 1 1))
            (truncQ (reprojected_pixel_y c8Denoiser c8PrevBuffer c8CurBuffer 1 1)))
          (kernel_mean c8CurBuffer (temporal_cells c8Denoiser 1 1) -
            c8Denoiser.tolerance •
              temporal_deviation c8Denoiser c8CurBuffer 1 1 (temporal_cells c8Denoiser 1 1))
          (kernel_mean c8CurBuffer (temporal_cells c8Denoiser 1 1) +
            c8Denoiser.tolerance •
              temporal_deviation c8Denoiser c8CurBuffer 1 1 (temporal_cells c8Denoiser 1 1)) +
        c8Denoiser.current_frame_weighting • c8CurBuffer.pixel_color 1 1 := by
  have hpx : reprojected_pixel_x c8Denoiser c8PrevBuffer c8CurBuffer 1 1 = 1 := by
    norm_num [reprojected_pixel_x, c8Denoiser, c8PrevBuffer, c8CurBuffer, Mat4.mulVec,
      Mat4.identity]
  have hpy : reprojected_pixel_y c8Denoiser c8PrevBuffer c8CurBuffer 1 1 = 1 := by
    norm_num [reprojected_pixel_y, c8Denoiser, c8PrevBuffer, c8CurBuffer, Mat4.mulVec,
      Mat4.identity]
  constructor
  · exact (c8_temporal_filter_amended c8Denoiser c8PrevBuffer c8MissBuffer c8MissBuffer 1 1).1 rfl
  · exact (c8_temporal_filter_amended c8Denoiser c8PrevBuffer c8CurBuffer c8CurBuffer 1 1).2.2.2.1
      (by norm_num [c8CurBuffer])
      (by rw [hpx, hpy]; norm_num [c8Denoiser])
      (by rw [hpx, hpy]; rfl)
